import Mathlib

/-!
Verification of the resource identity-map / graph-builder core of the
`sw360` Python client library (`sw360/sw360_objects.py`).

The development is a shallow embedding of that module:

* JSON values are the inductive `Json` (strings, numbers, booleans, null,
  arrays, objects with insertion-ordered key/value lists).
* Python objects are values of `Obj`; attribute slots are `Option`-valued,
  `none` meaning the attribute does not exist on the instance yet
  (Python `hasattr` is false) while `some Json.null` is an attribute
  holding Python `None`.  Scalar attributes assigned by name
  (`name`, `version`, ...) live in the association list `Obj.attrs`.
* The process heap is `Heap`: an association list of addresses to objects
  plus the class-level registry `SW360Resource.all_resources`, keyed by
  `(class, id)` exactly as the Python code keys it.
* Mutation is explicit state passing; code that can raise returns
  `Except Err _`.  A Python exception aborts the embedded computation and
  discards the state (the caller of the real library would still see the
  partially mutated heap; no theorem below inspects post-exception state).
* The recursive JSON decoders (`from_json`, `_parse_link`,
  `_parse_release_list`, ...) are mutually recursive through JSON payloads;
  they are embedded as a fuel-indexed family `fnsF : Nat → Fns` (structural
  recursion on fuel) so that all definitions compute by `decide`/`rfl`.
  `Err.outOfFuel` is an artifact of the embedding; every theorem supplies
  sufficient fuel, and no claim depends on fuel exhaustion.
* The third-party `packageurl.PackageURL.from_string` and the standard
  `json.loads` are external dependencies of the module (not code of this
  repository); they are modelled by executable functions (`purlFromString`,
  `jsonLoadsArray`) that are faithful on the inputs the claims exercise:
  `purlFromString` accepts `pkg:type/.../name[@version]` with a nonempty
  type and name and rejects anything else (the real parser's ValueError),
  and `jsonLoadsArray` parses JSON arrays of string literals, returning
  `none` (the real parser's JSONDecodeError) on malformed input.
  The `sw360` transport collaborator performs no computation in this core
  and is not modelled (it is always `None` in every scenario below).
-/

/-- JSON values, as delivered by the SW360 REST API and consumed by
`SW360Resource.from_json`.  Objects are insertion-ordered key/value lists,
mirroring Python `dict`. -/
inductive Json where
  | null
  | bool (b : Bool)
  | num (n : Int)
  | str (s : String)
  | arr (xs : List Json)
  | obj (kvs : List (String × Json))

mutual

/-- Boolean equality on `Json` (needed because `deriving DecidableEq` does
not handle the nested `List` occurrences). -/
def Json.beq : Json → Json → Bool
  | .null, .null => true
  | .bool a, .bool b => a == b
  | .num a, .num b => a == b
  | .str a, .str b => a == b
  | .arr xs, .arr ys => Json.beqList xs ys
  | .obj xs, .obj ys => Json.beqObj xs ys
  | _, _ => false

/-- Boolean equality on JSON arrays. -/
def Json.beqList : List Json → List Json → Bool
  | [], [] => true
  | x :: xs, y :: ys => Json.beq x y && Json.beqList xs ys
  | _, _ => false

/-- Boolean equality on JSON objects. -/
def Json.beqObj : List (String × Json) → List (String × Json) → Bool
  | [], [] => true
  | (k, v) :: xs, (k', v') :: ys => k == k' && Json.beq v v' && Json.beqObj xs ys
  | _, _ => false

end

mutual

theorem Json.beq_iff : ∀ a b, Json.beq a b = true ↔ a = b
  | .null, b => by cases b <;> simp [Json.beq]
  | .bool a, b => by cases b <;> simp [Json.beq]
  | .num a, b => by cases b <;> simp [Json.beq]
  | .str a, b => by cases b <;> simp [Json.beq]
  | .arr xs, b => by
      cases b <;> simp [Json.beq]
      exact Json.beqList_iff xs _
  | .obj xs, b => by
      cases b <;> simp [Json.beq]
      exact Json.beqObj_iff xs _

theorem Json.beqList_iff : ∀ xs ys, Json.beqList xs ys = true ↔ xs = ys
  | [], ys => by cases ys <;> simp [Json.beqList]
  | x :: xs, ys => by
      cases ys with
      | nil => simp [Json.beqList]
      | cons y ys => simp [Json.beqList, Json.beq_iff x y, Json.beqList_iff xs ys]

theorem Json.beqObj_iff : ∀ xs ys, Json.beqObj xs ys = true ↔ xs = ys
  | [], ys => by cases ys <;> simp [Json.beqObj]
  | (k, v) :: xs, ys => by
      cases ys with
      | nil => simp [Json.beqObj]
      | cons y ys =>
          obtain ⟨k', v'⟩ := y
          simp [Json.beqObj, Json.beq_iff v v', Json.beqObj_iff xs ys]

end

instance : DecidableEq Json := fun a b => decidable_of_iff _ (Json.beq_iff a b)

instance {ε α : Type} [DecidableEq ε] [DecidableEq α] : DecidableEq (Except ε α) :=
  fun a b =>
    match a, b with
    | .ok x, .ok y => decidable_of_iff (x = y) (by simp)
    | .error x, .error y => decidable_of_iff (x = y) (by simp)
    | .ok _, .error _ => isFalse (by simp)
    | .error _, .ok _ => isFalse (by simp)

/-- Python truthiness of a JSON-typed value (`if value:`): `None`, `False`,
`0`, `""`, `[]` and `{}` are falsy, everything else truthy. -/
def pyTruthy : Json → Bool
  | .null => false
  | .bool b => b
  | .num n => n != 0
  | .str s => s != ""
  | .arr xs => !xs.isEmpty
  | .obj kvs => !kvs.isEmpty

/-- Association-list lookup (first match), modelling Python `dict` access. -/
def alGet {κ ν : Type} [DecidableEq κ] : List (κ × ν) → κ → Option ν
  | [], _ => none
  | (k, v) :: r, x => if k = x then some v else alGet r x

/-- Association-list update, modelling Python `d[k] = v`: replaces the value
at an existing key in place, otherwise appends (insertion order). -/
def alSet {κ ν : Type} [DecidableEq κ] : List (κ × ν) → κ → ν → List (κ × ν)
  | [], x, w => [(x, w)]
  | (k, v) :: r, x, w => if k = x then (k, w) :: r else (k, v) :: alSet r x w

theorem alGet_alSet_self {κ ν : Type} [DecidableEq κ] (l : List (κ × ν)) (k : κ) (v : ν) :
    alGet (alSet l k v) k = some v := by
  induction l with
  | nil => simp [alGet, alSet]
  | cons kv r ih =>
      obtain ⟨k', v'⟩ := kv
      by_cases h : k' = k <;> simp [alGet, alSet, h, ih]

theorem alGet_alSet_ne {κ ν : Type} [DecidableEq κ] (l : List (κ × ν)) (k x : κ) (v : ν)
    (h : k ≠ x) : alGet (alSet l k v) x = alGet l x := by
  induction l with
  | nil => simp [alGet, alSet, h]
  | cons kv r ih =>
      obtain ⟨k', v'⟩ := kv
      by_cases h' : k' = k
      · subst h'
        simp [alGet, alSet, h]
      · simp [alGet, alSet, h']
        by_cases h'' : k' = x <;> simp [h'', ih]

theorem alSet_self_of_alGet {κ ν : Type} [DecidableEq κ] (l : List (κ × ν)) (k : κ) (v : ν)
    (h : alGet l k = some v) : alSet l k v = l := by
  induction l with
  | nil => simp [alGet] at h
  | cons kv r ih =>
      obtain ⟨k', v'⟩ := kv
      by_cases h' : k' = k
      · subst h'
        simp [alGet] at h
        simp [alSet, h]
      · simp [alGet, h'] at h
        simp [alSet, h', ih h]

theorem alSet_keys {κ ν : Type} [DecidableEq κ] (l : List (κ × ν)) (k : κ) (v : ν) :
    (alSet l k v).map Prod.fst = if (alGet l k).isSome then l.map Prod.fst
      else l.map Prod.fst ++ [k] := by
  induction l with
  | nil => simp [alGet, alSet]
  | cons kv r ih =>
      obtain ⟨k', v'⟩ := kv
      by_cases h : k' = k
      · simp [alGet, alSet, h]
      · simp [alGet, alSet, h, ih]
        by_cases h' : (alGet r k).isSome <;> simp [h']

theorem alGet_isSome_of_mem {κ ν : Type} [DecidableEq κ] (l : List (κ × ν)) (k : κ) (v : ν)
    (hm : (k, v) ∈ l) : (alGet l k).isSome := by
  induction l with
  | nil => simp at hm
  | cons kv r ih =>
      obtain ⟨k', v'⟩ := kv
      by_cases hk : k' = k
      · simp [alGet, hk]
      · simp [alGet, hk]
        cases hm with
        | head => exact absurd rfl hk
        | tail _ h2 => exact ih h2

theorem alSet_keys_nodup {κ ν : Type} [DecidableEq κ] (l : List (κ × ν)) (k : κ) (v : ν)
    (h : (l.map Prod.fst).Nodup) : ((alSet l k v).map Prod.fst).Nodup := by
  rw [alSet_keys]
  by_cases h' : (alGet l k).isSome
  · simpa [h']
  · simp [h', List.nodup_append, h]
    intro x hx
    have := alGet_isSome_of_mem l k x hx
    exact absurd this (by simpa using h')

theorem alGet_of_mem_nodup {κ ν : Type} [DecidableEq κ] (l : List (κ × ν)) (k : κ) (v : ν)
    (hnd : (l.map Prod.fst).Nodup) (hm : (k, v) ∈ l) : alGet l k = some v := by
  induction l with
  | nil => simp at hm
  | cons kv r ih =>
      obtain ⟨k', v'⟩ := kv
      simp at hnd
      cases hm with
      | head => simp [alGet]
      | tail _ h2 =>
          have hne : k' ≠ k := by
            intro he
            subst he
            exact hnd.1 v h2
          simp [alGet, hne, ih hnd.2 h2]

/-- `startsWithChars pre cs`: does `cs` start with `pre`?  Character-level
model of Python `str.startswith`. -/
def startsWithChars : List Char → List Char → Bool
  | [], _ => true
  | _, [] => false
  | p :: ps, c :: cs => p == c && startsWithChars ps cs

/-- Python `s.startswith(pre)`. -/
def pyStartsWith (s pre : String) : Bool :=
  startsWithChars pre.toList s.toList

/-- Split a character list at every occurrence of `sep`, keeping empty
pieces: the behaviour of Python `str.split(sep)` for a one-character
separator (`"a//b".split("/") == ["a", "", "b"]`, `"".split("/") == [""]`). -/
def splitOnChar (sep : Char) : List Char → List (List Char)
  | [] => [[]]
  | c :: rest =>
      match splitOnChar sep rest with
      | [] => [[c]]
      | h :: t => if c = sep then [] :: h :: t else (c :: h) :: t

theorem splitOnChar_ne_nil (sep : Char) (cs : List Char) : splitOnChar sep cs ≠ [] := by
  cases cs with
  | nil => simp [splitOnChar]
  | cons c rest =>
      simp only [splitOnChar]
      rcases h : splitOnChar sep rest with _ | ⟨h', t⟩
      · simp
      · by_cases hc : c = sep <;> simp [hc]

/-- Python `href.split("/")[-1]`, the trailing-id-segment extraction used at
`_parse_attachment_list` (line 109) and `_parse_link` "self" (line 148). -/
def hrefLastSegment (href : String) : String :=
  String.mk ((splitOnChar '/' href.toList).getLastD [])

/-- Python `str.split()` (no argument): split on runs of whitespace,
dropping empty pieces; used by `_parse_purls` (line 161). -/
def pySplitWhitespace (s : String) : List String :=
  (((s.toList.splitOnP fun c =>
      c = ' ' ∨ c = '\t' ∨ c = '\n' ∨ c = '\r')).filter (· ≠ [])).map String.mk

/-- Split a character list at the last occurrence of `c`:
`(before, some after)` if `c` occurs, `(l, none)` otherwise. -/
def splitAtLastChar (c : Char) (l : List Char) : List Char × Option (List Char) :=
  match go l.reverse with
  | none => (l, none)
  | some (bR, aR) => (aR.reverse, some bR.reverse)
where
  go : List Char → Option (List Char × List Char)
    | [] => none
    | x :: xs => if x = c then some ([], xs) else (go xs).map fun p => (x :: p.1, p.2)

/-- A parsed package URL.  Model of the third-party
`packageurl.PackageURL` value as far as this module uses it (qualifiers and
subpath are parsed past but not retained; the module only stores and
compares the parsed values). -/
structure Purl where
  ptype : String
  pnamespace : Option String
  pname : String
  pversion : Option String
deriving DecidableEq

/-- Modelled external dependency `packageurl.PackageURL.from_string`
(`ValueError` on malformed input becomes `none`): strips the mandatory
`pkg:` scheme and leading slashes, drops a `?qualifiers`/`#subpath` tail,
splits the version off at the last `@`, and requires a nonempty type plus a
nonempty name (so `pkg:xxx@0.43` and `pkg:huhu` are rejected, matching the
module's own test fixtures). -/
def purlFromString (s : String) : Option Purl :=
  if pyStartsWith s "pkg:" then
    let rest := (s.toList.drop 4).dropWhile (· = '/')
    let core := rest.takeWhile fun c => c ≠ '?' ∧ c ≠ '#'
    let (path, ver?) := splitAtLastChar '@' core
    match (splitOnChar '/' path).filter (· ≠ []) with
    | [] => none
    | [_] => none
    | t :: segs =>
        some { ptype := String.mk t
               pnamespace :=
                 if segs.dropLast.isEmpty then none
                 else some (String.intercalate "/" (segs.dropLast.map String.mk))
               pname := String.mk (segs.getLastD [])
               pversion := ver?.map String.mk }
  else none

/-- One step of the array-of-string-literals JSON parser: consume a string
literal body up to the closing quote (no escape handling; the payloads this
module receives from SW360 are plain purl strings). -/
def scanStringLit : List Char → List Char → Option (String × List Char)
  | [], _ => none
  | c :: rest, acc =>
      if c = '"' then some (String.mk acc.reverse, rest) else scanStringLit rest (c :: acc)

theorem scanStringLit_shrinks : ∀ cs acc s rest, scanStringLit cs acc = some (s, rest) →
    rest.length < cs.length := by
  intro cs
  induction cs with
  | nil => intro acc s rest h; simp [scanStringLit] at h
  | cons c cs ih =>
      intro acc s rest h
      by_cases hc : c = '"'
      · simp [scanStringLit, hc] at h
        rw [← h.2]
        simp
      · simp [scanStringLit, hc] at h
        have := ih _ _ _ h
        simp
        omega

/-- Whitespace skipped by the JSON parser. -/
def jsonWs (c : Char) : Bool :=
  c = ' ' ∨ c = '\t' ∨ c = '\n' ∨ c = '\r'

/-- Elements of a JSON array of string literals, after the opening `[`.
`fuel` only bounds the number of elements (each element consumes at least
one character, so the input length is enough fuel). -/
def parseArrayElems (fuel : Nat) (cs : List Char) (first : Bool) : Option (List Json) :=
  match fuel with
  | 0 => none
  | fuel + 1 =>
    let cs := cs.dropWhile jsonWs
    match cs with
    | ']' :: rest => if first ∧ (rest.dropWhile jsonWs).isEmpty then some [] else none
    | '"' :: rest =>
        match scanStringLit rest [] with
        | none => none
        | some (s, rest') =>
            let rest' := rest'.dropWhile jsonWs
            match rest' with
            | ',' :: rest'' =>
                (parseArrayElems fuel rest'' false).map fun xs => Json.str s :: xs
            | ']' :: rest'' =>
                if (rest''.dropWhile jsonWs).isEmpty then some [Json.str s] else none
            | _ => none
    | _ => none

/-- Modelled external dependency `json.loads`, restricted to the shape the
module actually feeds it at `_parse_purls` line 159: a JSON array of string
literals.  Malformed input yields `none` (the real `json.loads` raises
`json.JSONDecodeError`, which `_parse_purls` does not catch). -/
def jsonLoadsArray (s : String) : Option (List Json) :=
  match s.toList.dropWhile jsonWs with
  | '[' :: rest => parseArrayElems (rest.length + 1) rest true
  | _ => none

/-- The four concrete `SW360Resource` subclasses.  The registry key uses the
class (Python `cls.__name__`) as its first component. -/
inductive Cls where
  | release
  | component
  | project
  | attachment
deriving DecidableEq

/-- Python exceptions raised (or propagated) by the module.  The module
itself only raises `ValueError`; the distinct constructors record which of
its three `ValueError` sites fired, and which foreign exception escaped.
`outOfFuel` is an artifact of the fuel-indexed embedding of the mutually
recursive decoders, not a behaviour of the code. -/
inductive Err where
  | resourceIdMismatch (old idArg : Json)
  | duplicateObject (cls : Cls) (id : Json)
  | parentMismatch (old idArg : Json)
  | attributeError
  | keyError (k : String)
  | typeError
  | jsonDecodeError
  | outOfFuel
deriving DecidableEq

/-- One Python object of a `SW360Resource` subclass.  Every slot is
`Option`-valued: `none` means the attribute does not exist yet
(`hasattr` false).  `parent` holds `some none` for Python `None` and
`some (some a)` for a reference to the object at address `a`.  Scalar
attributes assigned by name (`name`, `version`, `filename`, ...) live in
`attrs`; `users`/`releases`/`attachments`/`projects` are dicts from id
values to object addresses. -/
structure Obj where
  cls : Cls
  id : Option Json := none
  parent : Option (Option Nat) := none
  users : Option (List (Json × Nat)) := none
  details : Option (List (String × Json)) := none
  external_ids : Option (List (String × Json)) := none
  purls : Option (Finset Purl) := none
  releases : Option (List (Json × Nat)) := none
  attachments : Option (List (Json × Nat)) := none
  projects : Option (List (Json × Nat)) := none
  download_link : Option Json := none
  attrs : List (String × Json) := []
deriving DecidableEq

/-- The process state: allocated objects and the class-level identity map
`SW360Resource.all_resources` (one shared dict, keyed by
`(cls.__name__, id)`). -/
structure Heap where
  objs : List (Nat × Obj) := []
  next : Nat := 0
  reg : List ((Cls × Json) × Nat) := []
deriving DecidableEq

def emptyHeap : Heap := {}

/-- A freshly allocated instance (`object.__new__`): no attributes yet. -/
def blankObj (cls : Cls) : Obj := { cls := cls }

def getObj (s : Heap) (a : Nat) : Obj :=
  (alGet s.objs a).getD (blankObj .release)

def updateObj (s : Heap) (a : Nat) (f : Obj → Obj) : Heap :=
  { s with objs := alSet s.objs a (f (getObj s a)) }

theorem getObj_updateObj (s : Heap) (a : Nat) (f : Obj → Obj) :
    getObj (updateObj s a f) a = f (getObj s a) := by
  simp [getObj, updateObj, alGet_alSet_self]

theorem getObj_updateObj_ne (s : Heap) (a b : Nat) (f : Obj → Obj) (h : a ≠ b) :
    getObj (updateObj s a f) b = getObj s b := by
  simp [getObj, updateObj, alGet_alSet_ne _ _ _ _ h]

theorem reg_updateObj (s : Heap) (a : Nat) (f : Obj → Obj) :
    (updateObj s a f).reg = s.reg := rfl

/-- `SW360Resource.__new__` (lines 31-44): compute the registry key from a
truthy `id_` or, failing that, from a truthy JSON payload that has an `"id"`
member; look up or create the instance under that key, or allocate an
unregistered instance when there is no key.  (For a non-dict payload the
Python membership test `"id" in json` is a substring/element test; the
constructors of this module are only ever handed dict payloads, and the
model returns no key for non-dict payloads.) -/
def pyNew (cls : Cls) (json? : Option Json) (id_ : Json) (s : Heap) : Nat × Heap :=
  let key? : Option (Cls × Json) :=
    if pyTruthy id_ then some (cls, id_)
    else match json? with
      | some (Json.obj kvs) =>
          if pyTruthy (Json.obj kvs) then (alGet kvs "id").map fun v => (cls, v)
          else none
      | _ => none
  match key? with
  | some key =>
      match alGet s.reg key with
      | some a => (a, s)
      | none =>
          (s.next, { objs := alSet s.objs s.next (blankObj cls)
                     next := s.next + 1
                     reg := alSet s.reg key s.next })
  | none =>
      (s.next, { objs := alSet s.objs s.next (blankObj cls)
                 next := s.next + 1
                 reg := s.reg })

/-- The registration step of `SW360Resource.__setattr__` (lines 87-91):
`all_resources[key] = self` under the key `(cls.__name__, id value)`, with
the `ValueError("Duplicate object detected")` guard when the registry
already maps that key to a different instance. -/
def regRegister (a : Nat) (v : Json) (s : Heap) : Except Err Heap :=
  match alGet s.reg ((getObj s a).cls, v) with
  | some b =>
      if b ≠ a then .error (.duplicateObject (getObj s a).cls v)
      else .ok { s with reg := alSet s.reg ((getObj s a).cls, v) a }
  | none => .ok { s with reg := alSet s.reg ((getObj s a).cls, v) a }

/-- `SW360Resource.__setattr__` for the attribute `id` (lines 83-91): store
the value first (line 86), then, if it is not `None`, register the object
under `(cls, value)`. -/
def setattrId (a : Nat) (v : Json) (s : Heap) : Except Err Heap :=
  if v = Json.null then .ok (updateObj s a fun o => { o with id := some v })
  else regRegister a v (updateObj s a fun o => { o with id := some v })

/-- `SW360Resource.__setattrdefault__` (lines 79-81) for a slot-modelled
attribute: assign when the value is truthy or the attribute is missing. -/
def sdef {α : Type} (slot : Option α) (v : α) (truthy : Bool) : Option α :=
  if truthy || slot.isNone then some v else slot

/-- `__setattrdefault__` for a name-indexed scalar attribute. -/
def sdefAttr (attrs : List (String × Json)) (k : String) (v : Json) :
    List (String × Json) :=
  if pyTruthy v || (alGet attrs k).isNone then alSet attrs k v else attrs

/-- `Release.__init__` lines 245-250: the `__setattrdefault__` calls run
before `SW360Resource.__init__`. -/
def releasePre (name version downloadurl : Json) (o : Obj) : Obj :=
  { o with
    external_ids := sdef o.external_ids [] false
    purls := sdef o.purls ∅ false
    attachments := sdef o.attachments [] false
    attrs := sdefAttr (sdefAttr (sdefAttr o.attrs "name" name)
      "version" version) "downloadurl" downloadurl }

/-- `Component.__init__` lines 403-410. -/
def componentPre (name description homepage component_type : Json) (o : Obj) : Obj :=
  { o with
    releases := sdef o.releases [] false
    attachments := sdef o.attachments [] false
    external_ids := sdef o.external_ids [] false
    purls := sdef o.purls ∅ false
    attrs := sdefAttr (sdefAttr (sdefAttr (sdefAttr o.attrs "name" name)
      "description" description) "homepage" homepage) "component_type" component_type }

/-- `Project.__init__` lines 486-495. -/
def projectPre (name version description visibility project_type : Json) (o : Obj) : Obj :=
  { o with
    releases := sdef o.releases [] false
    projects := sdef o.projects [] false
    attachments := sdef o.attachments [] false
    external_ids := sdef o.external_ids [] false
    purls := sdef o.purls ∅ false
    attrs := sdefAttr (sdefAttr (sdefAttr (sdefAttr (sdefAttr o.attrs "name" name)
      "version" version) "description" description) "visibility" visibility)
      "project_type" project_type }

/-- `Attachment.__init__` lines 318-321 (`download_link` defaults via
`__setattrdefault__` with the falsy value `None`). -/
def attachmentPre (attachment_type filename sha1 : Json) (o : Obj) : Obj :=
  { o with
    download_link := sdef o.download_link Json.null false
    attrs := sdefAttr (sdefAttr (sdefAttr o.attrs "attachment_type" attachment_type)
      "filename" filename) "sha1" sha1 }

/-- `SW360Resource.__init__` (lines 46-77) without the trailing
`from_json` call: `__setattrdefault__` for `details`/`users` (the `sw360`
transport handle is always `None` here and is not modelled), the id
consistency guard and assignment, the parent consistency guard, the user
merge and the kwargs-to-details loop.  Raises are modelled in order:
* `ValueError("Resource id mismatch")` when a truthy `id_` differs from an
  existing `id` attribute (line 56-57);
* the duplicate-object `ValueError` from `__setattr__` (line 90);
* `AttributeError` when `self.parent` is `None` and a parent argument is
  given (`self.parent.id` on line 64), and
  `ValueError("Resource parent mismatch")` when the parent ids differ
  (line 65). -/
def initDefaults (a : Nat) (s : Heap) : Heap :=
  updateObj s a fun o =>
    { o with details := sdef o.details [] false, users := sdef o.users [] false }

/-- The parent block of `SW360Resource.__init__` (lines 63-67). -/
def parentStep (a : Nat) (parent? : Option Nat) (s : Heap) : Except Err Heap :=
  match (getObj s a).parent with
  | some cur =>
      match parent? with
      | some p =>
          match cur with
          | none => .error .attributeError
          | some q =>
              match (getObj s q).id, (getObj s p).id with
              | some qi, some pi =>
                  if qi ≠ pi then .error (.parentMismatch qi pi) else .ok s
              | _, _ => .error .attributeError
      | none => .ok s
  | none => .ok (updateObj s a fun o => { o with parent := some parent? })

/-- The user-merge loop of `SW360Resource.__init__` (lines 69-71). -/
def usersMerge (a : Nat) (users : List (Json × Nat)) (s : Heap) : Heap :=
  users.foldl (fun s kv => updateObj s a fun o =>
    { o with users := some (alSet (o.users.getD []) kv.1 kv.2) }) s

/-- The kwargs-to-details loop of `SW360Resource.__init__` (lines 73-74). -/
def kwargsMerge (a : Nat) (kwargs : List (String × Json)) (s : Heap) : Heap :=
  kwargs.foldl (fun s kv => updateObj s a fun o =>
    { o with details := some (alSet (o.details.getD []) kv.1 kv.2) }) s

def baseInitCore (a : Nat) (id_ : Json) (parent? : Option Nat)
    (users : List (Json × Nat)) (kwargs : List (String × Json)) (s : Heap) :
    Except Err Heap :=
  if pyTruthy id_ ∧ (getObj (initDefaults a s) a).id.getD id_ ≠ id_ then
    .error (.resourceIdMismatch ((getObj (initDefaults a s) a).id.getD id_) id_)
  else
    match setattrId a id_ (initDefaults a s) with
    | .error e => .error e
    | .ok s2 =>
        match parentStep a parent? s2 with
        | .error e => .error e
        | .ok s3 => .ok (kwargsMerge a kwargs (usersMerge a users s3))

/-- The candidate list built by `_parse_purls` lines 156-161: a string
starting with `[` goes through `json.loads` (a failure propagates as
`json.JSONDecodeError`), any other string is whitespace-split; a JSON array
is iterated as-is; iterating a JSON object yields its keys (Python `for x
in dict`); `None`/numbers/booleans are not iterable (`TypeError`). -/
def purlCandidates (v : Json) : Except Err (List Json) :=
  match v with
  | .str s =>
      if pyStartsWith s "[" then
        match jsonLoadsArray s with
        | some xs => .ok xs
        | none => .error .jsonDecodeError
      else .ok ((pySplitWhitespace s).map Json.str)
  | .arr xs => .ok xs
  | .obj kvs => .ok (kvs.map fun kv => Json.str kv.1)
  | _ => .error .typeError

/-- The accumulation loop of `_parse_purls` lines 163-169: candidates that
start with `pkg:` are parsed, successful parses are added to the set, a
`ValueError` from the purl parser is silently discarded, and candidates not
starting with `pkg:` are skipped.  A non-string candidate has no
`.startswith` (`AttributeError`). -/
def collectPurls : List Json → Finset Purl → Except Err (Finset Purl)
  | [], acc => .ok acc
  | .str s :: rest, acc =>
      if pyStartsWith s "pkg:" then
        match purlFromString s with
        | some p => collectPurls rest (insert p acc)
        | none => collectPurls rest acc
      else collectPurls rest acc
  | _ :: _, _ => .error .attributeError

/-- `SW360Resource._parse_purls` (lines 153-170). -/
def parse_purls (v : Json) : Except Err (Finset Purl) :=
  match purlCandidates v with
  | .error e => .error e
  | .ok cands => collectPurls cands ∅

/-- Does this `externalIds` value get consumed into `purls`
(`if len(purls):` at line 188)? -/
def purlConsumes (v : Json) : Bool :=
  match parse_purls v with
  | .ok ps => ps ≠ ∅
  | .error _ => false

/-- The `externalIds` loop of `from_json` lines 184-191, folded over the
current `purls`/`external_ids` state of the resource: each id value is run
through `_parse_purls`; a nonempty result is unioned into `purls`
(`self.purls.update`), otherwise the raw value is stored under its id name
in `external_ids`. -/
def handleExternalIds : List (String × Json) → Finset Purl → List (String × Json) →
    Except Err (Finset Purl × List (String × Json))
  | [], purls, ext => .ok (purls, ext)
  | (k, v) :: rest, purls, ext =>
      match parse_purls v with
      | .error e => .error e
      | .ok ps =>
          if ps = ∅ then handleExternalIds rest purls (alSet ext k v)
          else handleExternalIds rest (purls ∪ ps) ext

/-- The camel-case to snake-case conversion of `from_json` line 182
(`re.sub(r'(?<!^)(?=[A-Z])', '_', key).lower()`): an underscore before
every upper-case letter except at position zero, then lower-case. -/
def camelToSnakeTail : List Char → List Char
  | [] => []
  | c :: rest =>
      if c.isUpper then '_' :: c.toLower :: camelToSnakeTail rest
      else c.toLower :: camelToSnakeTail rest

/-- `from_json`'s key conversion applied to a whole key. -/
def camelToSnake (s : String) : String :=
  match s.toList with
  | [] => ""
  | c :: rest => String.mk (c.toLower :: camelToSnakeTail rest)

/-- The `copy_attributes` allow-list each subclass passes to
`SW360Resource.from_json` (lines 269, 341-344, 431-432, 516-517). -/
def copyAttrs : Cls → List String
  | .release => ["name", "version", "downloadurl", "externalIds"]
  | .component => ["name", "description", "homepage", "componentType", "externalIds"]
  | .project => ["name", "description", "version", "visibility", "projectType",
      "externalIds"]
  | .attachment => ["filename", "sha1", "attachmentType", "createdBy", "createdTeam",
      "createdComment", "createdOn", "checkedBy", "checkedTeam", "checkedComment",
      "checkedOn", "checkStatus"]

/-- A scalar attribute assignment `self.__setattr__(key, value)` from
`from_json` line 193, routed through the `id` special case of
`__setattr__` for faithfulness (no `copy_attributes` entry actually
snake-cases to `id`). -/
def setattrAny (a : Nat) (name : String) (v : Json) (s : Heap) : Except Err Heap :=
  if name = "id" then setattrId a v s
  else .ok (updateObj s a fun o => { o with attrs := alSet o.attrs name v })

/-- `Release(...)` construction (`__new__` + `Release.__init__` +
`SW360Resource.__init__`) *without* the trailing `from_json` step; the
fuel-indexed `Fns.constructRel` adds that step when a payload is passed.
With `json? = none` this is exactly the Python constructor call. -/
def releaseCtorCore (json? : Option Json) (id_ : Json) (parent? : Option Nat)
    (users : List (Json × Nat)) (name version downloadurl : Json)
    (kwargs : List (String × Json)) (s : Heap) : Except Err (Nat × Heap) :=
  let r := pyNew .release json? id_ s
  match baseInitCore r.1 id_ parent? users kwargs
      (updateObj r.2 r.1 (releasePre name version downloadurl)) with
  | .error e => .error e
  | .ok s3 => .ok (r.1, s3)

/-- `Component(...)` construction without the trailing `from_json` step;
`Component.__init__` passes no parent/users to the base initializer. -/
def componentCtorCore (json? : Option Json) (id_ : Json)
    (name description homepage component_type : Json)
    (kwargs : List (String × Json)) (s : Heap) : Except Err (Nat × Heap) :=
  let r := pyNew .component json? id_ s
  match baseInitCore r.1 id_ none [] kwargs
      (updateObj r.2 r.1 (componentPre name description homepage component_type)) with
  | .error e => .error e
  | .ok s3 => .ok (r.1, s3)

/-- `Project(...)` construction without the trailing `from_json` step. -/
def projectCtorCore (json? : Option Json) (id_ : Json) (users : List (Json × Nat))
    (name version description visibility project_type : Json)
    (kwargs : List (String × Json)) (s : Heap) : Except Err (Nat × Heap) :=
  let r := pyNew .project json? id_ s
  match baseInitCore r.1 id_ none users kwargs
      (updateObj r.2 r.1 (projectPre name version description visibility project_type)) with
  | .error e => .error e
  | .ok s3 => .ok (r.1, s3)

/-- `Attachment(...)` construction without the trailing `from_json` step. -/
def attachmentCtorCore (json? : Option Json) (id_ : Json) (parent? : Option Nat)
    (attachment_type filename sha1 : Json)
    (kwargs : List (String × Json)) (s : Heap) : Except Err (Nat × Heap) :=
  let r := pyNew .attachment json? id_ s
  match baseInitCore r.1 id_ parent? [] kwargs
      (updateObj r.2 r.1 (attachmentPre attachment_type filename sha1)) with
  | .error e => .error e
  | .ok s3 => .ok (r.1, s3)

/-- The recursive decoder family: `from_json`, `_parse_link` and the three
list parsers, plus the constructors invoked with a JSON payload (whose
`SW360Resource.__init__` ends in a `from_json` call).  Packaged as a
structure so the mutual recursion can be indexed by fuel (structural
recursion on `Nat`, hence kernel-computable). -/
structure Fns where
  from_json : Nat → Json → Heap → Except Err Heap
  parse_link : Cls → Nat → String → String → Json → Heap → Except Err Heap
  parse_release_list : List Json → Option Nat → List (Json × Nat) → Heap →
    Except Err (List (Json × Nat) × Heap)
  parse_attachment_list : List Json → Option Nat → Heap →
    Except Err (List (Json × Nat) × Heap)
  parse_project_list : List Json → List (Json × Nat) → Heap →
    Except Err (List (Json × Nat) × Heap)
  constructRel : Option Json → Json → Option Nat → List (Json × Nat) → Heap →
    Except Err (Nat × Heap)
  constructComp : Option Json → Json → Heap → Except Err (Nat × Heap)
  constructProj : Option Json → Json → List (Json × Nat) → Heap →
    Except Err (Nat × Heap)
  constructAtt : Option Json → Json → Option Nat → Heap → Except Err (Nat × Heap)

/-- One key/value item of `from_json` (lines 179-198): allow-listed keys
are snake-cased and either routed to the externalIds normalizer or
assigned as attributes; `_links`/`_embedded` dispatch per sub-key to
`_parse_link`; everything else lands in `details`.  The allow-list is that
of the run-time class of `self` (Python method dispatch). -/
def processItemF (p : Fns) (cls : Cls) (a : Nat) (key : String) (v : Json)
    (s : Heap) : Except Err Heap :=
  if key ∈ copyAttrs cls then
    let skey := camelToSnake key
    if skey = "external_ids" then
      match v with
      | .obj ids =>
          let o := getObj s a
          match o.purls, o.external_ids with
          | some purls, some ext =>
              match handleExternalIds ids purls ext with
              | .ok (purls', ext') =>
                  .ok (updateObj s a fun o =>
                    { o with purls := some purls', external_ids := some ext' })
              | .error e => .error e
          | _, _ => .error .attributeError
      | _ => .error .attributeError
    else setattrAny a skey v s
  else if key = "_links" ∨ key = "_embedded" then
    match v with
    | .obj links => links.foldlM (fun s kv => p.parse_link cls a key kv.1 kv.2 s) s
    | _ => .error .attributeError
  else
    .ok (updateObj s a fun o =>
      { o with details := some (alSet (o.details.getD []) key v) })

/-- `SW360Resource._parse_link` (lines 125-151). -/
def parseLinkBodyF (p : Fns) (cls : Cls) (a : Nat) (key : String) (lk : String)
    (lv : Json) (s : Heap) : Except Err Heap :=
  if lk = "sw360:component" then
    match lv with
    | .obj kvs =>
        match alGet kvs "href" with
        | some (.str href) =>
            match p.constructComp none (.str (hrefLastSegment href)) s with
            | .ok (c, s') =>
                .ok (updateObj s' a fun o => { o with parent := some (some c) })
            | .error e => .error e
        | some _ => .error .attributeError
        | none => .error (.keyError "href")
    | _ => .error .typeError
  else if lk = "sw360:downloadLink" then
    match lv with
    | .obj kvs =>
        match alGet kvs "href" with
        | some h => .ok (updateObj s a fun o => { o with download_link := some h })
        | none => .error (.keyError "href")
    | _ => .error .typeError
  else if lk = "sw360:attachments" then
    match lv with
    | .arr items =>
        match p.parse_attachment_list items (some a) s with
        | .ok (atts, s') =>
            .ok (updateObj s' a fun o => { o with attachments := some atts })
        | .error e => .error e
    | _ => .error .typeError
  else if lk = "sw360:releases" then
    match lv with
    | .arr items =>
        if cls = .component then
          match p.parse_release_list items (some a) [] s with
          | .ok (rels, s') =>
              .ok (updateObj s' a fun o => { o with releases := some rels })
          | .error e => .error e
        else
          match (getObj s a).id with
          | some myid =>
              match p.parse_release_list items none [(myid, a)] s with
              | .ok (rels, s') =>
                  .ok (updateObj s' a fun o => { o with releases := some rels })
              | .error e => .error e
          | none => .error .attributeError
    | _ => .error .typeError
  else if lk = "sw360:projects" then
    match lv with
    | .arr items =>
        match (getObj s a).id with
        | some myid =>
            match p.parse_project_list items [(myid, a)] s with
            | .ok (projs, s') =>
                .ok (updateObj s' a fun o => { o with projects := some projs })
            | .error e => .error e
        | none => .error .attributeError
    | _ => .error .typeError
  else if lk = "self" then
    match lv with
    | .obj kvs =>
        match alGet kvs "href" with
        | some (.str href) => setattrId a (.str (hrefLastSegment href)) s
        | some _ => .error .attributeError
        | none => .error (.keyError "href")
    | _ => .error .typeError
  else
    let o := getObj s a
    let d := o.details.getD []
    match alGet d key with
    | some (.obj m) =>
        .ok (updateObj s a fun o =>
          { o with details := some (alSet d key (.obj (alSet m lk lv))) })
    | some _ => .error .typeError
    | none =>
        .ok (updateObj s a fun o =>
          { o with details := some (alSet d key (.obj [(lk, lv)])) })

/-- `SW360Resource._parse_release_list` (lines 93-101): each release JSON
must carry an `"id"` member (`release_json["id"]`, `KeyError` otherwise);
the release is constructed (looked up) with that id and the given
parent/users, decoded, and stored under its id. -/
def parseReleaseListF (p : Fns) (items : List Json) (parent? : Option Nat)
    (users : List (Json × Nat)) (s : Heap) : Except Err (List (Json × Nat) × Heap) :=
  items.foldlM (fun acc rj =>
    match rj with
    | .obj kvs =>
        match alGet kvs "id" with
        | some idv =>
            match p.constructRel none idv parent? users acc.2 with
            | .ok (r, s1) =>
                match p.from_json r rj s1 with
                | .ok s2 =>
                    match (getObj s2 r).id with
                    | some rid => .ok (alSet acc.1 rid r, s2)
                    | none => .error .attributeError
                | .error e => .error e
            | .error e => .error e
        | none => .error (.keyError "id")
    | _ => .error .typeError) ([], s)

/-- `SW360Resource._parse_attachment_list` (lines 103-113): the attachment
id is extracted from each attachment's own self-link href
(`attachment_json["_links"]["self"]["href"].split("/")[-1]`). -/
def parseAttachmentListF (p : Fns) (items : List Json) (parent? : Option Nat)
    (s : Heap) : Except Err (List (Json × Nat) × Heap) :=
  items.foldlM (fun acc aj =>
    match aj with
    | .obj kvs =>
        match alGet kvs "_links" with
        | some (.obj lks) =>
            match alGet lks "self" with
            | some (.obj selfo) =>
                match alGet selfo "href" with
                | some (.str href) =>
                    match p.constructAtt none (.str (hrefLastSegment href)) parent?
                        acc.2 with
                    | .ok (att, s1) =>
                        match p.from_json att aj s1 with
                        | .ok s2 =>
                            match (getObj s2 att).id with
                            | some aid => .ok (alSet acc.1 aid att, s2)
                            | none => .error .attributeError
                        | .error e => .error e
                    | .error e => .error e
                | some _ => .error .attributeError
                | none => .error (.keyError "href")
            | some _ => .error .typeError
            | none => .error (.keyError "self")
        | some _ => .error .typeError
        | none => .error (.keyError "_links")
    | _ => .error .typeError) ([], s)

/-- `SW360Resource._parse_project_list` (lines 115-123). -/
def parseProjectListF (p : Fns) (items : List Json) (users : List (Json × Nat))
    (s : Heap) : Except Err (List (Json × Nat) × Heap) :=
  items.foldlM (fun acc pj =>
    match pj with
    | .obj kvs =>
        match alGet kvs "id" with
        | some idv =>
            match p.constructProj none idv users acc.2 with
            | .ok (pr, s1) =>
                match p.from_json pr pj s1 with
                | .ok s2 =>
                    match (getObj s2 pr).id with
                    | some pid => .ok (alSet acc.1 pid pr, s2)
                    | none => .error .attributeError
                | .error e => .error e
            | .error e => .error e
        | none => .error (.keyError "id")
    | _ => .error .typeError) ([], s)

/-- `SW360Resource.from_json` (lines 174-198) dispatched on the run-time
class of `self`: iterate the payload's items (non-dict payloads have no
`.items()`). -/
def fromJsonItems (p : Fns) (cls : Cls) (a : Nat) (kvs : List (String × Json))
    (s : Heap) : Except Err Heap :=
  kvs.foldlM (fun s kv => processItemF p cls a kv.1 kv.2 s) s

def fromJsonBodyF (p : Fns) (a : Nat) (j : Json) (s : Heap) : Except Err Heap :=
  match j with
  | .obj kvs => fromJsonItems p (getObj s a).cls a kvs s
  | _ => .error .attributeError

/-- A full `Release(...)` call: constructor core, then `from_json` when a
payload was passed (the internal callers pass `name`/`version`/
`downloadurl` only as defaults, i.e. `None`). -/
def constructRelF (p : Fns) (json? : Option Json) (id_ : Json) (parent? : Option Nat)
    (users : List (Json × Nat)) (s : Heap) : Except Err (Nat × Heap) :=
  match releaseCtorCore json? id_ parent? users .null .null .null [] s with
  | .error e => .error e
  | .ok (a, s1) =>
      match json? with
      | none => .ok (a, s1)
      | some j =>
          match p.from_json a j s1 with
          | .ok s2 => .ok (a, s2)
          | .error e => .error e

/-- A full `Component(...)` call. -/
def constructCompF (p : Fns) (json? : Option Json) (id_ : Json) (s : Heap) :
    Except Err (Nat × Heap) :=
  match componentCtorCore json? id_ .null .null .null .null [] s with
  | .error e => .error e
  | .ok (a, s1) =>
      match json? with
      | none => .ok (a, s1)
      | some j =>
          match p.from_json a j s1 with
          | .ok s2 => .ok (a, s2)
          | .error e => .error e

/-- A full `Project(...)` call. -/
def constructProjF (p : Fns) (json? : Option Json) (id_ : Json)
    (users : List (Json × Nat)) (s : Heap) : Except Err (Nat × Heap) :=
  match projectCtorCore json? id_ users .null .null .null .null .null [] s with
  | .error e => .error e
  | .ok (a, s1) =>
      match json? with
      | none => .ok (a, s1)
      | some j =>
          match p.from_json a j s1 with
          | .ok s2 => .ok (a, s2)
          | .error e => .error e

/-- A full `Attachment(...)` call. -/
def constructAttF (p : Fns) (json? : Option Json) (id_ : Json) (parent? : Option Nat)
    (s : Heap) : Except Err (Nat × Heap) :=
  match attachmentCtorCore json? id_ parent? .null .null .null [] s with
  | .error e => .error e
  | .ok (a, s1) =>
      match json? with
      | none => .ok (a, s1)
      | some j =>
          match p.from_json a j s1 with
          | .ok s2 => .ok (a, s2)
          | .error e => .error e

/-- Fuel-0 family: every recursive entry point reports fuel exhaustion
(an embedding artifact, never reached by the theorems below). -/
def fns0 : Fns where
  from_json := fun _ _ _ => .error .outOfFuel
  parse_link := fun _ _ _ _ _ _ => .error .outOfFuel
  parse_release_list := fun _ _ _ _ => .error .outOfFuel
  parse_attachment_list := fun _ _ _ => .error .outOfFuel
  parse_project_list := fun _ _ _ => .error .outOfFuel
  constructRel := fun _ _ _ _ _ => .error .outOfFuel
  constructComp := fun _ _ _ => .error .outOfFuel
  constructProj := fun _ _ _ _ => .error .outOfFuel
  constructAtt := fun _ _ _ _ => .error .outOfFuel

/-- The decoder family at each fuel level: every cross-call inside a level
uses the family one level down, so the fuel bounds the dynamic call depth
(not the payload width, which is handled by list folds). -/
def fnsF : Nat → Fns
  | 0 => fns0
  | n + 1 =>
      let p := fnsF n
      { from_json := fromJsonBodyF p
        parse_link := parseLinkBodyF p
        parse_release_list := parseReleaseListF p
        parse_attachment_list := parseAttachmentListF p
        parse_project_list := parseProjectListF p
        constructRel := constructRelF p
        constructComp := constructCompF p
        constructProj := constructProjF p
        constructAtt := constructAttF p }

/-- `resource.from_json(json)` at fuel `fuel` on the object at `a`. -/
def from_json (fuel : Nat) (a : Nat) (j : Json) (s : Heap) : Except Err Heap :=
  (fnsF fuel).from_json a j s

/-- `Release(json=..., id_=..., parent=..., users=...)` at fuel `fuel`. -/
def releaseCtor (fuel : Nat) (json? : Option Json) (id_ : Json) (parent? : Option Nat)
    (users : List (Json × Nat)) (s : Heap) : Except Err (Nat × Heap) :=
  constructRelF (fnsF fuel) json? id_ parent? users s

/-- `Component(json=..., id_=...)` at fuel `fuel`. -/
def componentCtor (fuel : Nat) (json? : Option Json) (id_ : Json) (s : Heap) :
    Except Err (Nat × Heap) :=
  constructCompF (fnsF fuel) json? id_ s

theorem from_json_succ (n : Nat) : from_json (n + 1) = fromJsonBodyF (fnsF n) := rfl

theorem pyTruthy_ne_null {v : Json} (h : pyTruthy v = true) : v ≠ Json.null := by
  intro he
  subst he
  simp [pyTruthy] at h

theorem regRegister_reg {a : Nat} {v : Json} {s s' : Heap}
    (h : regRegister a v s = .ok s') :
    (∀ k w, alGet s.reg k = some w → alGet s'.reg k = some w) ∧
    ((s.reg.map Prod.fst).Nodup → (s'.reg.map Prod.fst).Nodup) ∧
    s'.objs = s.objs ∧ s'.next = s.next := by
  unfold regRegister at h
  split at h
  · rename_i b hg
    by_cases hba : b = a
    · subst hba
      rw [if_neg (by simp)] at h
      cases h
      rw [alSet_self_of_alGet _ _ _ hg]
      exact ⟨fun k w hk => hk, fun hnd => hnd, rfl, rfl⟩
    · rw [if_pos hba] at h
      cases h
  · rename_i hg
    cases h
    refine ⟨?_, ?_, rfl, rfl⟩
    · intro k w hk
      simp only
      have he : ((getObj s a).cls, v) ≠ k := by
        intro he
        rw [he, hk] at hg
        cases hg
      rw [alGet_alSet_ne _ _ _ _ he]
      exact hk
    · intro hnd
      exact alSet_keys_nodup _ _ _ hnd

theorem setattrId_reg {a : Nat} {v : Json} {s s' : Heap}
    (h : setattrId a v s = .ok s') :
    (∀ k w, alGet s.reg k = some w → alGet s'.reg k = some w) ∧
    ((s.reg.map Prod.fst).Nodup → (s'.reg.map Prod.fst).Nodup) := by
  unfold setattrId at h
  split at h
  · cases h
    exact ⟨fun k w hk => hk, fun hnd => hnd⟩
  · have := regRegister_reg h
    simp only [reg_updateObj] at this
    exact ⟨this.1, this.2.1⟩

theorem parentStep_reg {a : Nat} {parent? : Option Nat} {s s' : Heap}
    (h : parentStep a parent? s = .ok s') : s'.reg = s.reg := by
  unfold parentStep at h
  split at h
  · split at h
    · split at h
      · cases h
      · split at h
        · split at h
          · cases h
          · cases h
            rfl
        · cases h
    · cases h
      rfl
  · cases h
    rfl

theorem usersMerge_reg (a : Nat) (users : List (Json × Nat)) (s : Heap) :
    (usersMerge a users s).reg = s.reg := by
  unfold usersMerge
  induction users generalizing s with
  | nil => rfl
  | cons x r ih => simp [List.foldl, ih, reg_updateObj]

theorem kwargsMerge_reg (a : Nat) (kwargs : List (String × Json)) (s : Heap) :
    (kwargsMerge a kwargs s).reg = s.reg := by
  unfold kwargsMerge
  induction kwargs generalizing s with
  | nil => rfl
  | cons x r ih => simp [List.foldl, ih, reg_updateObj]

theorem baseInitCore_reg {a : Nat} {id_ : Json} {parent? : Option Nat}
    {users : List (Json × Nat)} {kwargs : List (String × Json)} {s s' : Heap}
    (h : baseInitCore a id_ parent? users kwargs s = .ok s') :
    (∀ k w, alGet s.reg k = some w → alGet s'.reg k = some w) ∧
    ((s.reg.map Prod.fst).Nodup → (s'.reg.map Prod.fst).Nodup) := by
  unfold baseInitCore at h
  split at h
  · cases h
  · split at h
    · cases h
    · rename_i s2 hset
      split at h
      · cases h
      · rename_i s3 hps
        cases h
        have hs2 := setattrId_reg hset
        simp only [initDefaults, reg_updateObj] at hs2
        have hr3 := parentStep_reg hps
        constructor
        · intro k w hk
          rw [kwargsMerge_reg, usersMerge_reg, hr3]
          exact hs2.1 k w hk
        · intro hnd
          rw [kwargsMerge_reg, usersMerge_reg, hr3]
          exact hs2.2 hnd

theorem pyNew_truthy_hit {cls : Cls} {json? : Option Json} {i : Json} {s : Heap} {a0 : Nat}
    (hi : pyTruthy i = true) (hg : alGet s.reg (cls, i) = some a0) :
    pyNew cls json? i s = (a0, s) := by
  unfold pyNew
  simp [hi, hg]

theorem pyNew_truthy_miss {cls : Cls} {json? : Option Json} {i : Json} {s : Heap}
    (hi : pyTruthy i = true) (hg : alGet s.reg (cls, i) = none) :
    pyNew cls json? i s =
      (s.next, { objs := alSet s.objs s.next (blankObj cls)
                 next := s.next + 1
                 reg := alSet s.reg (cls, i) s.next }) := by
  unfold pyNew
  simp [hi, hg]

theorem setattrId_objs {a : Nat} {v : Json} {s s' : Heap}
    (h : setattrId a v s = .ok s') :
    s'.objs = (updateObj s a fun o => { o with id := some v }).objs := by
  unfold setattrId at h
  split at h
  · cases h
    rfl
  · exact (regRegister_reg h).2.2.1

theorem parentStep_objs {a : Nat} {parent? : Option Nat} {s s' : Heap}
    (h : parentStep a parent? s = .ok s') :
    s' = s ∨ s' = updateObj s a fun o => { o with parent := some parent? } := by
  unfold parentStep at h
  split at h
  · split at h
    · split at h
      · cases h
      · split at h
        · split at h
          · cases h
          · cases h
            exact Or.inl rfl
        · cases h
    · cases h
      exact Or.inl rfl
  · cases h
    exact Or.inr rfl

theorem usersMerge_getObj_attrs (a : Nat) (users : List (Json × Nat)) (s : Heap)
    (b : Nat) : (getObj (usersMerge a users s) b).attrs = (getObj s b).attrs := by
  unfold usersMerge
  induction users generalizing s with
  | nil => rfl
  | cons x r ih =>
      simp only [List.foldl]
      rw [ih]
      by_cases hb : a = b
      · subst hb
        rw [getObj_updateObj]
      · rw [getObj_updateObj_ne _ _ _ _ hb]

theorem kwargsMerge_getObj_attrs (a : Nat) (kwargs : List (String × Json)) (s : Heap)
    (b : Nat) : (getObj (kwargsMerge a kwargs s) b).attrs = (getObj s b).attrs := by
  unfold kwargsMerge
  induction kwargs generalizing s with
  | nil => rfl
  | cons x r ih =>
      simp only [List.foldl]
      rw [ih]
      by_cases hb : a = b
      · subst hb
        rw [getObj_updateObj]
      · rw [getObj_updateObj_ne _ _ _ _ hb]

theorem baseInitCore_attrs {a : Nat} {id_ : Json} {parent? : Option Nat}
    {users : List (Json × Nat)} {kwargs : List (String × Json)} {s s' : Heap}
    (h : baseInitCore a id_ parent? users kwargs s = .ok s') :
    ∀ b, (getObj s' b).attrs = (getObj s b).attrs := by
  intro b
  unfold baseInitCore at h
  split at h
  · cases h
  · split at h
    · cases h
    · rename_i s2 hset
      split at h
      · cases h
      · rename_i s3 hps
        cases h
        rw [kwargsMerge_getObj_attrs, usersMerge_getObj_attrs]
        have hobjs2 := setattrId_objs hset
        have hattrs2 : (getObj s2 b).attrs = (getObj s b).attrs := by
          have : getObj s2 b = getObj (updateObj (initDefaults a s) a
              fun o => { o with id := some id_ }) b := by
            simp [getObj, hobjs2]
          rw [this]
          by_cases hb : a = b
          · subst hb
            rw [getObj_updateObj]
            simp [initDefaults, getObj_updateObj]
          · rw [getObj_updateObj_ne _ _ _ _ hb]
            simp [initDefaults, getObj_updateObj_ne _ _ _ _ hb]
        rcases parentStep_objs hps with h3 | h3
        · rw [h3, hattrs2]
        · rw [h3]
          by_cases hb : a = b
          · subst hb
            rw [getObj_updateObj]
            exact hattrs2
          · rw [getObj_updateObj_ne _ _ _ _ hb]
            exact hattrs2

/-- Registry effect of a successful direct (`json=None`) `Release(...)`
construction with a truthy `id_`: the registry afterwards maps
`(Release, id_)` to the returned address, registry entries are never
replaced, key well-formedness is preserved, and a pre-registered address
is always the one returned. -/
theorem releaseCtorCore_reg {i : Json} {parent? : Option Nat}
    {users : List (Json × Nat)} {name version downloadurl : Json}
    {kwargs : List (String × Json)} {s s' : Heap} {a : Nat}
    (hi : pyTruthy i = true)
    (h : releaseCtorCore none i parent? users name version downloadurl kwargs s =
      .ok (a, s')) :
    alGet s'.reg (Cls.release, i) = some a ∧
    (∀ k w, alGet s.reg k = some w → alGet s'.reg k = some w) ∧
    ((s.reg.map Prod.fst).Nodup → (s'.reg.map Prod.fst).Nodup) ∧
    (∀ a0, alGet s.reg (Cls.release, i) = some a0 → a = a0) := by
  unfold releaseCtorCore at h
  rcases hg : alGet s.reg (Cls.release, i) with _ | a0
  · rw [pyNew_truthy_miss hi hg] at h
    dsimp only at h
    split at h
    · cases h
    · rename_i s3 hbi
      cases h
      have hbase := baseInitCore_reg hbi
      simp only [reg_updateObj] at hbase
      refine ⟨?_, ?_, ?_, ?_⟩
      · exact hbase.1 _ _ (by simpa using alGet_alSet_self s.reg (Cls.release, i) s.next)
      · intro k w hk
        refine hbase.1 k w ?_
        have hne : (Cls.release, i) ≠ k := by
          intro he
          rw [he, hk] at hg
          cases hg
        simpa [alGet_alSet_ne _ _ _ _ hne] using hk
      · intro hnd
        exact hbase.2 (by simpa using alSet_keys_nodup _ (Cls.release, i) s.next hnd)
      · intro a0 h0
        exact Option.noConfusion h0
  · rw [pyNew_truthy_hit hi hg] at h
    dsimp only at h
    split at h
    · cases h
    · rename_i s3 hbi
      cases h
      have hbase := baseInitCore_reg hbi
      simp only [reg_updateObj] at hbase
      refine ⟨hbase.1 _ _ hg, hbase.1, hbase.2, ?_⟩
      intro a1 h1
      exact Option.some.inj h1

/-- Step 1 of the id-reset scenario: `r = Release(id_="123")` on an empty
registry. -/
def idScnStep1 : Except Err (Nat × Heap) :=
  releaseCtor 3 none (.str "123") none [] emptyHeap

def idScnHeap1 : Heap :=
  match idScnStep1 with
  | .ok (_, s) => s
  | .error _ => emptyHeap

/-- Step 2: `Release(json={"id": "123"})` — `__new__` keys on the payload's
id and returns the registered object, but `__init__` then runs with
`id_=None` and executes `self.id = id_` unconditionally (line 58). -/
def idScnStep2 : Except Err (Nat × Heap) :=
  releaseCtor 3 (some (.obj [("id", .str "123")])) .null none [] idScnHeap1

def idScnHeap2 : Heap :=
  match idScnStep2 with
  | .ok (_, s) => s
  | .error _ => emptyHeap

/-- Step 3: `Release(id_="123")` again. -/
def idScnStep3 : Except Err (Nat × Heap) :=
  releaseCtor 3 none (.str "123") none [] idScnHeap2

/-- A decode of a self-link whose href carries a different trailing id. -/
def idScnHrefStep : Except Err Heap :=
  from_json 3 0
    (.obj [("_links", .obj [("self", .obj [("href", .str "x/releases/456")])])])
    idScnHeap1

def idScnHrefHeap : Heap :=
  match idScnHrefStep with
  | .ok s => s
  | .error _ => emptyHeap

/-- C1, counterexample.  The claim quantifies over *all* sequences of
constructions/decodes referencing the same `(type, id)` pair through the
listed paths and asserts each path yields the identity-equal object.  In
the concrete sequence `Release(id_="123")`; `Release(json={"id":"123"})`;
`Release(id_="123")`, the first two calls do return the same object
(address 0), but the second one resets its `id` attribute to `None`
(line 58 executes `self.id = id_` with `id_=None`), so the third call
raises `ValueError("Resource id mismatch", None, "123")` instead of
yielding the object: not every path yields the instance. -/
theorem C1_counterexample :
    idScnStep1.map Prod.fst = .ok 0 ∧
    idScnStep2.map Prod.fst = .ok 0 ∧
    idScnStep3 = .error (.resourceIdMismatch .null (.str "123")) := by decide

/-- C1, amended: for every heap whose registry keys are well-formed
(no duplicate keys), any two successful direct constructions keyed on the
same truthy `(Release, id_)` yield the identity-equal object, and the
registry afterwards holds exactly one entry for that pair, mapping it to
that object.  (What the counterexample removes from the original claim is
only that *every* construction in such a sequence succeeds: a payload
construction in between can reset the stored id to `None` and make a later
keyed construction fail with `ValueError` instead of yielding the
object.) -/
theorem C1_amended (s : Heap) (i : Json) (hi : pyTruthy i = true)
    (hnd : (s.reg.map Prod.fst).Nodup)
    (p1 p2 : Option Nat) (u1 u2 : List (Json × Nat)) (n1 v1 d1 n2 v2 d2 : Json)
    (k1 k2 : List (String × Json)) (a b : Nat) (s1 s2 : Heap)
    (h1 : releaseCtorCore none i p1 u1 n1 v1 d1 k1 s = .ok (a, s1))
    (h2 : releaseCtorCore none i p2 u2 n2 v2 d2 k2 s1 = .ok (b, s2)) :
    b = a ∧ alGet s2.reg (Cls.release, i) = some a ∧
    ∀ x, ((Cls.release, i), x) ∈ s2.reg → x = a := by
  have r1 := releaseCtorCore_reg hi h1
  have r2 := releaseCtorCore_reg hi h2
  have hb : b = a := r2.2.2.2 a r1.1
  subst hb
  have hget : alGet s2.reg (Cls.release, i) = some b := r2.1
  have hnd2 : (s2.reg.map Prod.fst).Nodup := r2.2.2.1 (r1.2.2.1 hnd)
  refine ⟨rfl, hget, ?_⟩
  intro x hx
  have := alGet_of_mem_nodup _ _ _ hnd2 hx
  rw [hget] at this
  exact (Option.some.inj this).symm

def c1w1 : Heap :=
  match releaseCtorCore none (.str "7") none [] .null .null .null [] emptyHeap with
  | .ok (_, s) => s
  | .error _ => emptyHeap

def c1w2 : Heap :=
  match releaseCtorCore none (.str "7") none [] .null .null .null [] c1w1 with
  | .ok (_, s) => s
  | .error _ => emptyHeap

theorem C1_amended_witness :
    pyTruthy (.str "7") = true ∧
    ((emptyHeap.reg.map Prod.fst).Nodup) ∧
    releaseCtorCore none (.str "7") none [] .null .null .null [] emptyHeap =
      .ok (0, c1w1) ∧
    releaseCtorCore none (.str "7") none [] .null .null .null [] c1w1 =
      .ok (0, c1w2) ∧
    (0 = 0 ∧ alGet c1w2.reg (Cls.release, .str "7") = some 0 ∧
      ∀ x, ((Cls.release, .str "7"), x) ∈ c1w2.reg → x = 0) :=
  ⟨by decide, by decide, by decide, by decide,
    C1_amended emptyHeap (.str "7") (by decide) (by decide) none none [] []
      .null .null .null .null .null .null [] [] 0 0 c1w1 c1w2 (by decide) (by decide)⟩

/-- C3, counterexample.  The claim says a non-`None` id is immutable and
in particular never reset to `None`.  But after `r = Release(id_="123")`
(stored id `"123"`), the call `Release(json={"id": "123"})` returns the
same object and resets its stored id to `None`; and decoding a self-link
with href `"x/releases/456"` on the same object silently overwrites the id
with `"456"` — no error in either case. -/
theorem C3_counterexample :
    idScnStep1.map Prod.fst = .ok 0 ∧
    (getObj idScnHeap1 0).id = some (.str "123") ∧
    idScnStep2.map Prod.fst = .ok 0 ∧
    (getObj idScnHeap2 0).id = some Json.null ∧
    idScnHrefStep = .ok idScnHrefHeap ∧
    (getObj idScnHrefHeap 0).id = some (.str "456") := by decide

/-- C3, amended: the only id-immutability guarantee the constructor gives
is the line 56 guard: when a construction resolves (via the registry) to
an object whose existing stored id differs from the truthy `id_` argument,
construction fails with `ValueError("Resource id mismatch")`.  The stored
id itself is mutable (a payload construction resets it to `None`, a
self-link href overwrites it), as the counterexample shows. -/
theorem C3_amended (s : Heap) (i w : Json) (a : Nat) (hi : pyTruthy i = true)
    (hreg : alGet s.reg (Cls.release, i) = some a)
    (hid : (getObj s a).id = some w) (hw : w ≠ i)
    (p : Option Nat) (u : List (Json × Nat)) (n v d : Json)
    (k : List (String × Json)) :
    releaseCtorCore none i p u n v d k s = .error (.resourceIdMismatch w i) := by
  unfold releaseCtorCore
  rw [pyNew_truthy_hit hi hreg]
  dsimp only
  unfold baseInitCore
  have hval : (getObj (initDefaults a (updateObj s a (releasePre n v d))) a).id =
      some w := by
    simp [initDefaults, getObj_updateObj, releasePre, hid]
  rw [if_pos ⟨hi, by simp [hval, hw]⟩]
  simp [hval]

theorem C3_amended_witness :
    pyTruthy (.str "123") = true ∧
    alGet idScnHeap2.reg (Cls.release, .str "123") = some 0 ∧
    (getObj idScnHeap2 0).id = some Json.null ∧
    Json.null ≠ Json.str "123" ∧
    releaseCtorCore none (.str "123") none [] .null .null .null [] idScnHeap2 =
      .error (.resourceIdMismatch Json.null (.str "123")) :=
  ⟨by decide, by decide, by decide, by decide,
    C3_amended idScnHeap2 (.str "123") Json.null 0 (by decide) (by decide)
      (by decide) (by decide) none [] .null .null .null []⟩

theorem setattrId_registered {a : Nat} {v : Json} {s : Heap}
    (hv : v ≠ Json.null) (hreg : alGet s.reg ((getObj s a).cls, v) = some a) :
    setattrId a v s = .ok (updateObj s a fun o => { o with id := some v }) := by
  unfold setattrId
  rw [if_neg hv]
  unfold regRegister
  have hcls : (getObj (updateObj s a fun o => { o with id := some v }) a).cls =
      (getObj s a).cls := by
    rw [getObj_updateObj]
  rw [hcls, reg_updateObj, hreg]
  dsimp only
  rw [if_neg (by simp)]
  have hsame : alSet s.reg ((getObj s a).cls, v) a = s.reg :=
    alSet_self_of_alGet _ _ _ hreg
  rw [hsame]
  rfl

theorem parentStep_mismatch {a p q : Nat} {qi pi : Json} {s : Heap}
    (hpar : (getObj s a).parent = some (some q))
    (hq : (getObj s q).id = some qi) (hp : (getObj s p).id = some pi)
    (hne : qi ≠ pi) :
    parentStep a (some p) s = .error (.parentMismatch qi pi) := by
  unfold parentStep
  rw [hpar]
  simp [hq, hp, hne]

/-- Setup for the parent-reassignment scenario: `compA = Component(id_="A")`
(address 0), then `r = Release(id_="r", parent=compA)` (address 1). -/
def parScnStep1 : Except Err (Nat × Heap) := componentCtor 3 none (.str "A") emptyHeap

def parScnHeap1 : Heap :=
  match parScnStep1 with
  | .ok (_, s) => s
  | .error _ => emptyHeap

def parScnStep2 : Except Err (Nat × Heap) :=
  releaseCtor 3 none (.str "r") (some 0) [] parScnHeap1

def parScnHeap2 : Heap :=
  match parScnStep2 with
  | .ok (_, s) => s
  | .error _ => emptyHeap

/-- `r.from_json({"_links": {"sw360:component": {"href": "x/components/B"}}})`:
a `sw360:component` link whose trailing id differs from the current
parent's id. -/
def parScnLinkStep : Except Err Heap :=
  from_json 5 1
    (.obj [("_links", .obj [("sw360:component", .obj [("href", .str "x/components/B")])])])
    parScnHeap2

def parScnHeap3 : Heap :=
  match parScnLinkStep with
  | .ok s => s
  | .error _ => emptyHeap

/-- Re-construction with the (new) same parent plus an extra user. -/
def parScnSameStep : Except Err (Nat × Heap) :=
  releaseCtor 3 none (.str "r") (some 0) [(.str "P", 0)] parScnHeap2

def parScnSameHeap : Heap :=
  match parScnSameStep with
  | .ok (_, s) => s
  | .error _ => emptyHeap

/-- C4, counterexample.  Decoding a `sw360:component` link with a
*different* component id on an already-parented release does not fail:
`_parse_link` line 128 assigns `self.parent = Component(id_=...)`
unconditionally, so the parent is silently replaced by the new Component
(address 2, id `"B"`) — no `ValueError` and the previous parent is *not*
kept.  (The constructor path, by contrast, does raise, and merging a
disjoint user is allowed — shown by `parScnSameStep` succeeding with the
user merged.) -/
theorem C4_counterexample :
    parScnStep1.map Prod.fst = .ok 0 ∧
    parScnStep2.map Prod.fst = .ok 1 ∧
    (getObj parScnHeap2 1).parent = some (some 0) ∧
    parScnLinkStep = .ok parScnHeap3 ∧
    (getObj parScnHeap3 1).parent = some (some 2) ∧
    (getObj parScnHeap3 2).id = some (.str "B") ∧
    (getObj parScnHeap3 2).cls = Cls.component ∧
    parScnSameStep.map Prod.fst = .ok 1 ∧
    (getObj parScnSameHeap 1).users = some [(.str "P", 0)] ∧
    (getObj parScnSameHeap 1).parent = some (some 0) := by decide

/-- C4, amended: re-assigning a different parent through the *constructor*
of an already-parented release is a fatal
`ValueError("Resource parent mismatch")` (line 65), and the construction
performs no assignment before raising; but re-assignment through a
`sw360:component` link is *not* guarded — it silently replaces the parent
(counterexample) — and merging additional disjoint users stays allowed. -/
theorem C4_amended (s : Heap) (i qi pi : Json) (a p q : Nat)
    (hi : pyTruthy i = true)
    (hreg : alGet s.reg (Cls.release, i) = some a)
    (hcls : (getObj s a).cls = Cls.release)
    (hid : (getObj s a).id = some i)
    (hpar : (getObj s a).parent = some (some q))
    (hqa : q ≠ a) (hpa : p ≠ a)
    (hq : (getObj s q).id = some qi) (hp : (getObj s p).id = some pi)
    (hne : qi ≠ pi)
    (u : List (Json × Nat)) (n v d : Json) (k : List (String × Json)) :
    releaseCtorCore none i (some p) u n v d k s =
      .error (.parentMismatch qi pi) := by
  unfold releaseCtorCore
  rw [pyNew_truthy_hit hi hreg]
  dsimp only
  unfold baseInitCore
  have hYid : (getObj (initDefaults a (updateObj s a (releasePre n v d))) a).id =
      some i := by
    simp [initDefaults, getObj_updateObj, releasePre, hid]
  rw [if_neg (by simp [hYid])]
  have hYcls : (getObj (initDefaults a (updateObj s a (releasePre n v d))) a).cls =
      Cls.release := by
    simp [initDefaults, getObj_updateObj, releasePre, hcls]
  have hset := setattrId_registered (s := initDefaults a (updateObj s a (releasePre n v d)))
    (a := a) (v := i) (pyTruthy_ne_null hi) (by
      rw [hYcls]
      simp only [initDefaults, reg_updateObj]
      exact hreg)
  rw [hset]
  have hW := parentStep_mismatch (s := updateObj
      (initDefaults a (updateObj s a (releasePre n v d))) a
      fun o => { o with id := some i })
    (a := a) (p := p) (q := q)
    (by simp [getObj_updateObj, initDefaults, releasePre, hpar])
    (by rw [getObj_updateObj_ne _ _ _ _ (fun he => hqa he.symm)]
        simp [initDefaults, getObj_updateObj_ne _ _ _ _ (fun he => hqa he.symm), hq])
    (by rw [getObj_updateObj_ne _ _ _ _ (fun he => hpa he.symm)]
        simp [initDefaults, getObj_updateObj_ne _ _ _ _ (fun he => hpa he.symm), hp])
    hne
  dsimp only
  rw [hW]

theorem C4_amended_witness :
    pyTruthy (.str "r") = true ∧
    alGet parScnHeap3.reg (Cls.release, .str "r") = some 1 ∧
    (getObj parScnHeap3 1).cls = Cls.release ∧
    (getObj parScnHeap3 1).id = some (.str "r") ∧
    (getObj parScnHeap3 1).parent = some (some 2) ∧
    (getObj parScnHeap3 2).id = some (.str "B") ∧
    (getObj parScnHeap3 0).id = some (.str "A") ∧
    releaseCtorCore none (.str "r") (some 0) [] .null .null .null [] parScnHeap3 =
      .error (.parentMismatch (.str "B") (.str "A")) :=
  ⟨by decide, by decide, by decide, by decide, by decide, by decide, by decide,
    C4_amended parScnHeap3 (.str "r") (.str "B") (.str "A") 1 0 2 (by decide)
      (by decide) (by decide) (by decide) (by decide) (by decide) (by decide)
      (by decide) (by decide) (by decide) [] .null .null .null []⟩

theorem sdefAttr_get_ne (attrs : List (String × Json)) (k k' : String) (v : Json)
    (h : k ≠ k') : alGet (sdefAttr attrs k v) k' = alGet attrs k' := by
  unfold sdefAttr
  split
  · exact alGet_alSet_ne _ _ _ _ h
  · rfl

theorem sdefAttr_get_self (attrs : List (String × Json)) (k : String) (v w : Json)
    (h : alGet attrs k = some w) :
    alGet (sdefAttr attrs k v) k = if pyTruthy v then some v else some w := by
  unfold sdefAttr
  by_cases ht : pyTruthy v
  · simp [ht, alGet_alSet_self]
  · simp [ht, h]

/-- C9: `__setattrdefault__` (lines 79-81) makes re-construction of an
already-registered release overlay the scalar constructor arguments by
*truthiness*, not by presence: a truthy `name`/`version`/`downloadurl`
argument overwrites the stored attribute, while `None`, `""` or any other
falsy argument (including the default) leaves the stored value unchanged —
so a previously set attribute can never be cleared through the
constructor. -/
theorem C9_truthiness_overlay (s : Heap) (i : Json) (a b : Nat) (s' : Heap)
    (hi : pyTruthy i = true)
    (hreg : alGet s.reg (Cls.release, i) = some a)
    (vN vV vD : Json)
    (hn : alGet (getObj s a).attrs "name" = some vN)
    (hv : alGet (getObj s a).attrs "version" = some vV)
    (hd : alGet (getObj s a).attrs "downloadurl" = some vD)
    (nameArg versionArg downloadurlArg : Json)
    (p : Option Nat) (u : List (Json × Nat)) (k : List (String × Json))
    (h : releaseCtorCore none i p u nameArg versionArg downloadurlArg k s =
      .ok (b, s')) :
    b = a ∧
    alGet (getObj s' b).attrs "name" =
      (if pyTruthy nameArg then some nameArg else some vN) ∧
    alGet (getObj s' b).attrs "version" =
      (if pyTruthy versionArg then some versionArg else some vV) ∧
    alGet (getObj s' b).attrs "downloadurl" =
      (if pyTruthy downloadurlArg then some downloadurlArg else some vD) := by
  have hb : b = a := (releaseCtorCore_reg hi h).2.2.2 a hreg
  subst hb
  unfold releaseCtorCore at h
  rw [pyNew_truthy_hit hi hreg] at h
  dsimp only at h
  split at h
  · cases h
  · rename_i s3 hbi
    cases h
    have hattrs := baseInitCore_attrs hbi b
    rw [getObj_updateObj] at hattrs
    have hpre : (releasePre nameArg versionArg downloadurlArg (getObj s b)).attrs =
        sdefAttr (sdefAttr (sdefAttr (getObj s b).attrs "name" nameArg)
          "version" versionArg) "downloadurl" downloadurlArg := rfl
    rw [hpre] at hattrs
    refine ⟨rfl, ?_, ?_, ?_⟩
    · rw [hattrs, sdefAttr_get_ne _ _ _ _ (by decide),
        sdefAttr_get_ne _ _ _ _ (by decide), sdefAttr_get_self _ _ _ _ hn]
    · rw [hattrs, sdefAttr_get_ne _ _ _ _ (by decide)]
      rw [sdefAttr_get_self _ _ _ _ (by
        rw [sdefAttr_get_ne _ _ _ _ (by decide)]
        exact hv)]
    · rw [hattrs]
      rw [sdefAttr_get_self _ _ _ _ (by
        rw [sdefAttr_get_ne _ _ _ _ (by decide), sdefAttr_get_ne _ _ _ _ (by decide)]
        exact hd)]

def c9Heap0 : Heap :=
  match releaseCtorCore none (.str "9") none [] (.str "orig") (.str "1.0")
      (.str "http://d") [] emptyHeap with
  | .ok (_, s) => s
  | .error _ => emptyHeap

def c9Heap1 : Heap :=
  match releaseCtorCore none (.str "9") none [] (.str "neu") Json.null (.str "") []
      c9Heap0 with
  | .ok (_, s) => s
  | .error _ => emptyHeap

theorem C9_truthiness_overlay_witness :
    pyTruthy (.str "9") = true ∧
    alGet c9Heap0.reg (Cls.release, .str "9") = some 0 ∧
    alGet (getObj c9Heap0 0).attrs "name" = some (.str "orig") ∧
    alGet (getObj c9Heap0 0).attrs "version" = some (.str "1.0") ∧
    alGet (getObj c9Heap0 0).attrs "downloadurl" = some (.str "http://d") ∧
    releaseCtorCore none (.str "9") none [] (.str "neu") Json.null (.str "") []
      c9Heap0 = .ok (0, c9Heap1) ∧
    (0 = 0 ∧
      alGet (getObj c9Heap1 0).attrs "name" =
        (if pyTruthy (.str "neu") then some (.str "neu") else some (.str "orig")) ∧
      alGet (getObj c9Heap1 0).attrs "version" =
        (if pyTruthy Json.null then some Json.null else some (.str "1.0")) ∧
      alGet (getObj c9Heap1 0).attrs "downloadurl" =
        (if pyTruthy (.str "") then some (.str "") else some (.str "http://d"))) :=
  ⟨by decide, by decide, by decide, by decide, by decide, by decide,
    C9_truthiness_overlay c9Heap0 (.str "9") 0 0 c9Heap1 (by decide) (by decide)
      (.str "orig") (.str "1.0") (.str "http://d") (by decide) (by decide) (by decide)
      (.str "neu") Json.null (.str "") none [] [] (by decide)⟩

/-- First-wins combination of lookups (the second dict acts as fallback). -/
def oElse {α : Type} (x y : Option α) : Option α :=
  match x with
  | some v => some v
  | none => y

theorem oElse_assoc {α : Type} (x y z : Option α) :
    oElse (oElse x y) z = oElse x (oElse y z) := by
  cases x <;> rfl

theorem alGet_alSet_oElse (E0 : List (String × Json)) (k : String) (v : Json)
    (x : String) :
    alGet (alSet E0 k v) x = oElse (alGet [(k, v)] x) (alGet E0 x) := by
  by_cases hk : k = x
  · subst hk
    rw [alGet_alSet_self]
    simp [alGet, oElse]
  · rw [alGet_alSet_ne _ _ _ _ hk]
    simp [alGet, hk, oElse]

theorem oElse_none {α : Type} (x : Option α) : oElse x none = x := by
  cases x <;> rfl

theorem handleExternalIds_ok_indep :
    ∀ (items : List (String × Json)) (P0 : Finset Purl) (E0 : List (String × Json))
      (P : Finset Purl) (E : List (String × Json)) (P1 : Finset Purl)
      (E1 : List (String × Json)),
      handleExternalIds items P0 E0 = .ok (P, E) →
      ∃ P' E', handleExternalIds items P1 E1 = .ok (P', E') := by
  intro items
  induction items with
  | nil => exact fun P0 E0 P E P1 E1 _ => ⟨P1, E1, rfl⟩
  | cons kv rest ih =>
      intro P0 E0 P E P1 E1 h
      obtain ⟨k, v⟩ := kv
      unfold handleExternalIds at h ⊢
      rcases hp : parse_purls v with e | ps
      · rw [hp] at h
        dsimp only at h ⊢
        cases h
      · rw [hp] at h
        dsimp only at h ⊢
        by_cases hps : ps = ∅
        · rw [if_pos hps] at h ⊢
          exact ih _ _ _ _ _ _ h
        · rw [if_neg hps] at h ⊢
          exact ih _ _ _ _ _ _ h

/-- The externalIds loop relative to its starting accumulators: a run from
`(purls, ext)` equals the run from `(∅, {})` with the old `purls` unioned
in and the old `ext` acting as fallback for keys the pass did not touch. -/
theorem handleExternalIds_shift :
    ∀ (items : List (String × Json)) (P0 : Finset Purl) (E0 : List (String × Json))
      (P : Finset Purl) (E : List (String × Json)),
      handleExternalIds items P0 E0 = .ok (P, E) →
      ∃ Pf Ef, handleExternalIds items ∅ [] = .ok (Pf, Ef) ∧ P = P0 ∪ Pf ∧
        ∀ x, alGet E x = oElse (alGet Ef x) (alGet E0 x) := by
  intro items
  induction items with
  | nil =>
      intro P0 E0 P E h
      unfold handleExternalIds at h
      cases h
      exact ⟨∅, [], rfl, by simp, fun x => by simp [alGet, oElse]⟩
  | cons kv rest ih =>
      intro P0 E0 P E h
      obtain ⟨k, v⟩ := kv
      unfold handleExternalIds at h ⊢
      rcases hp : parse_purls v with e | ps
      · rw [hp] at h
        dsimp only at h ⊢
        cases h
      · rw [hp] at h
        dsimp only at h ⊢
        by_cases hps : ps = ∅
        · rw [if_pos hps] at h ⊢
          obtain ⟨Pr, Er, hfr, hPr, hEr⟩ := ih _ _ _ _ h
          obtain ⟨P2, E2, h2⟩ := handleExternalIds_ok_indep rest P0 (alSet E0 k v)
            P E ∅ (alSet [] k v) h
          obtain ⟨Pr', Er', hfr', hP2, hE2⟩ := ih _ _ _ _ h2
          rw [hfr] at hfr'
          cases hfr'
          refine ⟨P2, E2, h2, ?_, ?_⟩
          · rw [hPr, hP2]
            simp
          · intro x
            have h2x := hE2 x
            rw [show alSet ([] : List (String × Json)) k v = [(k, v)] from rfl] at h2x
            rw [hEr x, alGet_alSet_oElse, ← oElse_assoc, ← h2x]
        · rw [if_neg hps] at h ⊢
          obtain ⟨Pr, Er, hfr, hPr, hEr⟩ := ih _ _ _ _ h
          obtain ⟨P2, E2, h2⟩ := handleExternalIds_ok_indep rest (P0 ∪ ps) E0
            P E (∅ ∪ ps) ([] : List (String × Json)) h
          obtain ⟨Pr', Er', hfr', hP2, hE2⟩ := ih _ _ _ _ h2
          rw [hfr] at hfr'
          cases hfr'
          refine ⟨P2, E2, h2, ?_, ?_⟩
          · rw [hPr, hP2, Finset.union_assoc]
            simp
          · intro x
            have h2x := hE2 x
            rw [show alGet ([] : List (String × Json)) x = none from rfl,
              oElse_none] at h2x
            rw [hEr x, h2x]

/-- Fresh release `Release(id_="z")` for the re-decode scenario. -/
def rescnHeap0 : Heap :=
  match releaseCtor 3 none (.str "z") none [] emptyHeap with
  | .ok (_, s) => s
  | .error _ => emptyHeap

def rescnPayload1 : Json := .obj [("externalIds", .obj [("package-url", .str "pkg:a/b@1")])]

def rescnPayload2 : Json := .obj [("externalIds", .obj [("package-url", .str "pkg:c/d@2")])]

def rescnStep1 : Except Err Heap := from_json 3 0 rescnPayload1 rescnHeap0

def rescnHeap1 : Heap :=
  match rescnStep1 with
  | .ok s => s
  | .error _ => emptyHeap

def rescnStep2 : Except Err Heap := from_json 3 0 rescnPayload2 rescnHeap1

def rescnHeap2 : Heap :=
  match rescnStep2 with
  | .ok s => s
  | .error _ => emptyHeap

/-- The second payload decoded alone onto a fresh release `Release(id_="z2")`. -/
def rescnFreshHeap0 : Heap :=
  match releaseCtor 3 none (.str "z2") none [] emptyHeap with
  | .ok (_, s) => s
  | .error _ => emptyHeap

def rescnFreshHeap1 : Heap :=
  match from_json 3 0 rescnPayload2 rescnFreshHeap0 with
  | .ok s => s
  | .error _ => emptyHeap

/-- C2, counterexample.  The claim says a second `externalIds` decode
re-evaluates from scratch so that after it `purls` equals what decoding the
second payload alone onto a fresh resource would produce.  In fact the loop
at line 189 executes `self.purls.update(purls)` — purely additive — so after
decoding `{"package-url": "pkg:a/b@1"}` and then `{"package-url":
"pkg:c/d@2"}` the release holds both purls, while the second payload alone
yields only one: the purl derived from the first payload survives. -/
theorem C2_counterexample :
    rescnStep1 = .ok rescnHeap1 ∧
    rescnStep2 = .ok rescnHeap2 ∧
    (getObj rescnHeap2 0).purls =
      some {⟨"a", none, "b", some "1"⟩, ⟨"c", none, "d", some "2"⟩} ∧
    (getObj rescnFreshHeap1 0).purls = some {⟨"c", none, "d", some "2"⟩} ∧
    (getObj rescnHeap2 0).purls ≠ (getObj rescnFreshHeap1 0).purls := by decide

/-- C2, amended: a second `externalIds` decode is *additive*, not
re-entrant: it unions the purls extracted from the new payload into the
existing `purls` set, and overlays `external_ids` key by key — a key not
touched by the new payload keeps the value the first payload stored
(`self.purls.update(purls)` at line 189 and
`self.external_ids[id_type] = id_value` at line 191 never clear previous
state). -/
theorem C2_amended (n : Nat) (s : Heap) (a : Nat) (items : List (String × Json))
    (P0 Pf : Finset Purl) (E0 Ef : List (String × Json)) (s' : Heap)
    (hcls : (getObj s a).cls = Cls.release)
    (hP : (getObj s a).purls = some P0)
    (hE : (getObj s a).external_ids = some E0)
    (h : from_json (n + 1) a (.obj [("externalIds", .obj items)]) s = .ok s')
    (hf : handleExternalIds items ∅ [] = .ok (Pf, Ef)) :
    (getObj s' a).purls = some (P0 ∪ Pf) ∧
    ∀ x, alGet ((getObj s' a).external_ids.getD []) x =
      oElse (alGet Ef x) (alGet E0 x) := by
  rw [from_json_succ] at h
  unfold fromJsonBodyF at h
  dsimp only at h
  rw [hcls] at h
  have hred : fromJsonItems (fnsF n) Cls.release a
      [("externalIds", Json.obj items)] s =
      processItemF (fnsF n) Cls.release a "externalIds" (Json.obj items) s >>=
        pure := rfl
  rw [hred, bind_pure] at h
  have hpi : processItemF (fnsF n) Cls.release a "externalIds" (Json.obj items) s =
      (match (getObj s a).purls, (getObj s a).external_ids with
       | some purls, some ext =>
          match handleExternalIds items purls ext with
          | .ok (purls', ext') => .ok (updateObj s a fun o =>
              { o with purls := some purls', external_ids := some ext' })
          | .error e => .error e
       | _, _ => .error .attributeError) := rfl
  rw [hpi, hP, hE] at h
  dsimp only at h
  rcases hh : handleExternalIds items P0 E0 with e | PE
  · rw [hh] at h
    cases h
  · obtain ⟨P', E'⟩ := PE
    rw [hh] at h
    dsimp only at h
    cases h
    obtain ⟨Pf', Ef', hfr, hP', hE'⟩ := handleExternalIds_shift items P0 E0 P' E' hh
    rw [hf] at hfr
    cases hfr
    constructor
    · rw [getObj_updateObj]
      simp [hP']
    · intro x
      rw [getObj_updateObj]
      exact hE' x

theorem C2_amended_witness :
    (getObj rescnHeap1 0).cls = Cls.release ∧
    (getObj rescnHeap1 0).purls = some {⟨"a", none, "b", some "1"⟩} ∧
    (getObj rescnHeap1 0).external_ids = some [] ∧
    rescnStep2 = .ok rescnHeap2 ∧
    handleExternalIds [("package-url", .str "pkg:c/d@2")] ∅ [] =
      .ok ({⟨"c", none, "d", some "2"⟩}, []) ∧
    ((getObj rescnHeap2 0).purls =
      some ({⟨"a", none, "b", some "1"⟩} ∪ {⟨"c", none, "d", some "2"⟩}) ∧
     alGet ((getObj rescnHeap2 0).external_ids.getD []) "package-url" =
      oElse (alGet ([] : List (String × Json)) "package-url")
        (alGet ([] : List (String × Json)) "package-url")) :=
  ⟨by decide, by decide, by decide, by decide, by decide,
    (C2_amended 2 rescnHeap1 0 [("package-url", .str "pkg:c/d@2")]
      {⟨"a", none, "b", some "1"⟩} {⟨"c", none, "d", some "2"⟩} [] []
      rescnHeap2 (by decide) (by decide) (by decide) (by decide) (by decide)).1,
    (C2_amended 2 rescnHeap1 0 [("package-url", .str "pkg:c/d@2")]
      {⟨"a", none, "b", some "1"⟩} {⟨"c", none, "d", some "2"⟩} [] []
      rescnHeap2 (by decide) (by decide) (by decide) (by decide) (by decide)).2
      "package-url"⟩

theorem alSet_append_of_none {κ ν : Type} [DecidableEq κ] (l : List (κ × ν)) (k : κ)
    (v : ν) (h : alGet l k = none) : alSet l k v = l ++ [(k, v)] := by
  induction l with
  | nil => rfl
  | cons kv r ih =>
      obtain ⟨k', v'⟩ := kv
      by_cases hk : k' = k
      · simp [alGet, hk] at h
      · simp [alGet, hk] at h
        simp [alSet, hk, ih h]

theorem alGet_append {κ ν : Type} [DecidableEq κ] (l l' : List (κ × ν)) (k : κ) :
    alGet (l ++ l') k = oElse (alGet l k) (alGet l' k) := by
  induction l with
  | nil => simp [alGet, oElse]
  | cons kv r ih =>
      obtain ⟨k', v'⟩ := kv
      by_cases hk : k' = k <;> simp [alGet, hk, oElse, ih]

theorem handleExternalIds_items_ok :
    ∀ (items : List (String × Json)) (P : Finset Purl) (E : List (String × Json))
      (P' : Finset Purl) (E' : List (String × Json)),
      handleExternalIds items P E = .ok (P', E') →
      ∀ kv ∈ items, ∃ ps, parse_purls kv.2 = .ok ps := by
  intro items
  induction items with
  | nil => intro P E P' E' _ kv hm; simp at hm
  | cons kv0 rest ih =>
      intro P E P' E' h kv hm
      obtain ⟨k, v⟩ := kv0
      unfold handleExternalIds at h
      rcases hp : parse_purls v with e | ps
      · rw [hp] at h
        cases h
      · rw [hp] at h
        dsimp only at h
        cases hm with
        | head => exact ⟨ps, hp⟩
        | tail _ hm' =>
            by_cases hps : ps = ∅
            · rw [if_pos hps] at h
              exact ih _ _ _ _ h kv hm'
            · rw [if_neg hps] at h
              exact ih _ _ _ _ h kv hm'

/-- On a fresh resource (and generally whenever the incoming `ext` dict is
disjoint from the payload's keys), the externalIds loop appends exactly the
non-consumed entries, in payload order and verbatim. -/
theorem handleExternalIds_filter :
    ∀ (items : List (String × Json)) (P : Finset Purl) (E : List (String × Json))
      (P' : Finset Purl) (E' : List (String × Json)),
      (items.map Prod.fst).Nodup →
      (∀ k, k ∈ items.map Prod.fst → alGet E k = none) →
      handleExternalIds items P E = .ok (P', E') →
      E' = E ++ items.filter fun kv => purlConsumes kv.2 = false := by
  intro items
  induction items with
  | nil =>
      intro P E P' E' _ _ h
      unfold handleExternalIds at h
      cases h
      simp
  | cons kv0 rest ih =>
      intro P E P' E' hnd hdis h
      obtain ⟨k, v⟩ := kv0
      unfold handleExternalIds at h
      rcases hp : parse_purls v with e | ps
      · rw [hp] at h
        cases h
      · rw [hp] at h
        dsimp only at h
        simp only [List.map, List.nodup_cons] at hnd
        by_cases hps : ps = ∅
        · rw [if_pos hps] at h
          have hconsume : purlConsumes v = false := by
            simp [purlConsumes, hp, hps]
          have hEk : alGet E k = none := hdis k (by simp)
          rw [alSet_append_of_none E k v hEk] at h
          have hdis' : ∀ k', k' ∈ rest.map Prod.fst →
              alGet (E ++ [(k, v)]) k' = none := by
            intro k' hk'
            rw [alGet_append]
            have h1 : alGet E k' = none := hdis k' (by simp [hk'])
            have h2 : alGet [(k, v)] k' = none := by
              have : k ≠ k' := by
                intro he
                subst he
                exact hnd.1 hk'
              simp [alGet, this]
            rw [h1, h2]
            rfl
          rw [ih _ _ _ _ hnd.2 hdis' h]
          simp [List.filter, hconsume]
        · rw [if_neg hps] at h
          have hconsume : purlConsumes v = true := by
            simp [purlConsumes, hp]
            exact hps
          have hdis' : ∀ k', k' ∈ rest.map Prod.fst → alGet E k' = none :=
            fun k' hk' => hdis k' (by simp [hk'])
          rw [ih _ _ _ _ hnd.2 hdis' h]
          simp [List.filter, hconsume]

theorem collectPurls_mem :
    ∀ (cands : List Json) (acc r : Finset Purl), collectPurls cands acc = .ok r →
      ∀ q, q ∈ r ↔ q ∈ acc ∨ ∃ str, Json.str str ∈ cands ∧
        pyStartsWith str "pkg:" = true ∧ purlFromString str = some q := by
  intro cands
  induction cands with
  | nil =>
      intro acc r h q
      unfold collectPurls at h
      cases h
      simp
  | cons c rest ih =>
      intro acc r h q
      rcases c with _ | b | m | str | xs | kvs
      case str =>
        unfold collectPurls at h
        by_cases hpre : pyStartsWith str "pkg:" = true
        · rw [if_pos hpre] at h
          rcases hps : purlFromString str with _ | p
          · rw [hps] at h
            rw [ih _ _ h q]
            constructor
            · rintro (hacc | ⟨s2, hs2, hpre2, hfrom2⟩)
              · exact Or.inl hacc
              · exact Or.inr ⟨s2, by simp [hs2], hpre2, hfrom2⟩
            · rintro (hacc | ⟨s2, hs2, hpre2, hfrom2⟩)
              · exact Or.inl hacc
              · simp at hs2
                rcases hs2 with hs2 | hs2
                · subst hs2
                  rw [hps] at hfrom2
                  cases hfrom2
                · exact Or.inr ⟨s2, hs2, hpre2, hfrom2⟩
          · rw [hps] at h
            rw [ih _ _ h q]
            simp only [Finset.mem_insert]
            constructor
            · rintro ((hq | hacc) | ⟨s2, hs2, hpre2, hfrom2⟩)
              · exact Or.inr ⟨str, by simp, hpre, by rw [hps, hq]⟩
              · exact Or.inl hacc
              · exact Or.inr ⟨s2, by simp [hs2], hpre2, hfrom2⟩
            · rintro (hacc | ⟨s2, hs2, hpre2, hfrom2⟩)
              · exact Or.inl (Or.inr hacc)
              · simp at hs2
                rcases hs2 with hs2 | hs2
                · subst hs2
                  rw [hps] at hfrom2
                  exact Or.inl (Or.inl (Option.some.inj hfrom2).symm)
                · exact Or.inr ⟨s2, hs2, hpre2, hfrom2⟩
        · rw [if_neg hpre] at h
          rw [ih _ _ h q]
          constructor
          · rintro (hacc | ⟨s2, hs2, hpre2, hfrom2⟩)
            · exact Or.inl hacc
            · exact Or.inr ⟨s2, by simp [hs2], hpre2, hfrom2⟩
          · rintro (hacc | ⟨s2, hs2, hpre2, hfrom2⟩)
            · exact Or.inl hacc
            · simp at hs2
              rcases hs2 with hs2 | hs2
              · subst hs2
                exact absurd hpre2 hpre
              · exact Or.inr ⟨s2, hs2, hpre2, hfrom2⟩
      all_goals
        unfold collectPurls at h
        cases h

theorem parse_purls_candidates {v : Json} {ps : Finset Purl}
    (h : parse_purls v = .ok ps) :
    ∃ cands, purlCandidates v = .ok cands ∧ collectPurls cands ∅ = .ok ps := by
  unfold parse_purls at h
  rcases hc : purlCandidates v with e | cands
  · rw [hc] at h
    cases h
  · rw [hc] at h
    exact ⟨cands, rfl, h⟩

/-- An id name is consumed exactly when at least one of its candidate
strings starts with `pkg:` and parses as a valid package URL. -/
theorem purlConsumes_iff {v : Json} {ps : Finset Purl}
    (h : parse_purls v = .ok ps) :
    purlConsumes v = true ↔ ∃ cands str q, purlCandidates v = .ok cands ∧
      Json.str str ∈ cands ∧ pyStartsWith str "pkg:" = true ∧
      purlFromString str = some q := by
  obtain ⟨cands, hc, hcol⟩ := parse_purls_candidates h
  have hmem := collectPurls_mem cands ∅ ps hcol
  constructor
  · intro hcons
    unfold purlConsumes at hcons
    rw [h] at hcons
    simp at hcons
    obtain ⟨q, hq⟩ := Finset.nonempty_iff_ne_empty.mpr hcons
    rcases (hmem q).mp hq with h0 | ⟨str, hs, hpre, hfrom⟩
    · simp at h0
    · exact ⟨cands, str, q, hc, hs, hpre, hfrom⟩
  · rintro ⟨cands', str, q, hc', hs, hpre, hfrom⟩
    rw [hc] at hc'
    cases hc'
    unfold purlConsumes
    rw [h]
    simp
    intro he
    have : q ∈ ps := (hmem q).mpr (Or.inr ⟨str, hs, hpre, hfrom⟩)
    rw [he] at this
    simp at this

theorem filterKeys_cover (l : List (String × Json)) (k : String) :
    k ∈ l.map Prod.fst ↔
      k ∈ (l.filter fun kv => purlConsumes kv.2 = false).map Prod.fst ∨
      k ∈ (l.filter fun kv => purlConsumes kv.2).map Prod.fst := by
  simp only [List.mem_map, List.mem_filter, decide_eq_true_eq]
  constructor
  · rintro ⟨⟨k2, v⟩, hm, rfl⟩
    by_cases hcons : purlConsumes v = true
    · exact Or.inr ⟨(k2, v), ⟨hm, hcons⟩, rfl⟩
    · exact Or.inl ⟨(k2, v), ⟨hm, by simpa using hcons⟩, rfl⟩
  · rintro (⟨⟨k2, v⟩, ⟨hm, _⟩, rfl⟩ | ⟨⟨k2, v⟩, ⟨hm, _⟩, rfl⟩) <;>
      exact ⟨(k2, v), hm, rfl⟩

theorem filterKeys_disjoint (l : List (String × Json))
    (hnd : (l.map Prod.fst).Nodup) (k : String) :
    ¬(k ∈ (l.filter fun kv => purlConsumes kv.2 = false).map Prod.fst ∧
      k ∈ (l.filter fun kv => purlConsumes kv.2).map Prod.fst) := by
  rintro ⟨h1, h2⟩
  simp only [List.mem_map, List.mem_filter, decide_eq_true_eq] at h1 h2
  obtain ⟨⟨k1, v1⟩, ⟨hm1, hc1⟩, he1⟩ := h1
  obtain ⟨⟨k2, v2⟩, ⟨hm2, hc2⟩, he2⟩ := h2
  simp at he1 he2
  rw [he1] at hm1
  rw [he2] at hm2
  have e1 := alGet_of_mem_nodup l k v1 hnd hm1
  have e2 := alGet_of_mem_nodup l k v2 hnd hm2
  rw [e1] at e2
  cases Option.some.inj e2
  rw [hc1] at hc2
  cases hc2

/-- C6: decoding an `externalIds` map onto a fresh resource partitions the
map exactly: the resulting `external_ids` dict is (verbatim and in order)
the sub-map of entries no candidate of which parsed as a purl; the key sets
of `external_ids` and of the consumed entries cover the original key set
and are disjoint; consumption happens exactly when at least one candidate
string starts with `pkg:` and parses as a valid package URL. -/
theorem C6_purl_partition (n : Nat) (s : Heap) (a : Nat)
    (items : List (String × Json)) (s' : Heap)
    (hcls : (getObj s a).cls = Cls.release)
    (hP : (getObj s a).purls = some ∅)
    (hE : (getObj s a).external_ids = some [])
    (hnd : (items.map Prod.fst).Nodup)
    (h : from_json (n + 1) a (.obj [("externalIds", .obj items)]) s = .ok s') :
    (getObj s' a).external_ids =
      some (items.filter fun kv => purlConsumes kv.2 = false) ∧
    (∀ k, k ∈ items.map Prod.fst ↔
      (k ∈ ((getObj s' a).external_ids.getD []).map Prod.fst ∨
       k ∈ (items.filter fun kv => purlConsumes kv.2).map Prod.fst)) ∧
    (∀ k, ¬(k ∈ ((getObj s' a).external_ids.getD []).map Prod.fst ∧
       k ∈ (items.filter fun kv => purlConsumes kv.2).map Prod.fst)) ∧
    (∀ k v, (k, v) ∈ items → purlConsumes v = false →
      alGet ((getObj s' a).external_ids.getD []) k = some v) ∧
    (∀ k v, (k, v) ∈ items →
      (purlConsumes v = true ↔ ∃ cands str q, purlCandidates v = .ok cands ∧
        Json.str str ∈ cands ∧ pyStartsWith str "pkg:" = true ∧
        purlFromString str = some q)) := by
  rw [from_json_succ] at h
  unfold fromJsonBodyF at h
  dsimp only at h
  rw [hcls] at h
  have hred : fromJsonItems (fnsF n) Cls.release a
      [("externalIds", Json.obj items)] s =
      processItemF (fnsF n) Cls.release a "externalIds" (Json.obj items) s >>=
        pure := rfl
  rw [hred, bind_pure] at h
  have hpi : processItemF (fnsF n) Cls.release a "externalIds" (Json.obj items) s =
      (match (getObj s a).purls, (getObj s a).external_ids with
       | some purls, some ext =>
          match handleExternalIds items purls ext with
          | .ok (purls', ext') => .ok (updateObj s a fun o =>
              { o with purls := some purls', external_ids := some ext' })
          | .error e => .error e
       | _, _ => .error .attributeError) := rfl
  rw [hpi, hP, hE] at h
  dsimp only at h
  rcases hh : handleExternalIds items ∅ [] with e | PE
  · rw [hh] at h
    cases h
  · obtain ⟨P', E'⟩ := PE
    rw [hh] at h
    dsimp only at h
    cases h
    have hfilter : E' = items.filter fun kv => purlConsumes kv.2 = false := by
      have := handleExternalIds_filter items ∅ [] P' E' hnd
        (fun k _ => rfl) hh
      simpa using this
    have hext : (getObj (updateObj s a fun o =>
        { o with purls := some P', external_ids := some E' }) a).external_ids =
        some E' := by
      rw [getObj_updateObj]
    refine ⟨by rw [hext, hfilter], ?_, ?_, ?_, ?_⟩
    · intro k
      rw [hext]
      simp only [Option.getD_some]
      rw [hfilter]
      exact filterKeys_cover items k
    · intro k
      rw [hext]
      simp only [Option.getD_some]
      rw [hfilter]
      exact filterKeys_disjoint items hnd k
    · intro k v hm hcons
      rw [hext]
      simp only [Option.getD_some]
      rw [hfilter]
      have hmf : (k, v) ∈ items.filter fun kv => purlConsumes kv.2 = false := by
        simp [List.mem_filter, hm, hcons]
      have hndf : ((items.filter fun kv =>
          purlConsumes kv.2 = false).map Prod.fst).Nodup :=
        hnd.sublist ((List.filter_sublist _).map Prod.fst)
      exact alGet_of_mem_nodup _ _ _ hndf hmf
    · intro k v hm
      obtain ⟨ps, hps⟩ := handleExternalIds_items_ok items ∅ [] P' E' hh (k, v) hm
      exact purlConsumes_iff hps

def c6Heap0 : Heap :=
  match releaseCtor 3 none (.str "q") none [] emptyHeap with
  | .ok (_, s) => s
  | .error _ => emptyHeap

/-- The mixed map of the spec scenario: an unparseable purl candidate under
`package-url` and a valid one under `purl`. -/
def c6Items : List (String × Json) :=
  [("package-url", .str "pkg:xxx@0.43"), ("purl", .str "pkg:deb/debian/acl@1.5.43")]

def c6Heap1 : Heap :=
  match from_json 3 0 (.obj [("externalIds", .obj c6Items)]) c6Heap0 with
  | .ok s => s
  | .error _ => emptyHeap

theorem C6_purl_partition_witness :
    (getObj c6Heap0 0).cls = Cls.release ∧
    (getObj c6Heap0 0).purls = some ∅ ∧
    (getObj c6Heap0 0).external_ids = some [] ∧
    (c6Items.map Prod.fst).Nodup ∧
    from_json (2 + 1) 0 (.obj [("externalIds", .obj c6Items)]) c6Heap0 =
      .ok c6Heap1 ∧
    (getObj c6Heap1 0).external_ids =
      some (c6Items.filter fun kv => purlConsumes kv.2 = false) :=
  ⟨by decide, by decide, by decide, by decide, by decide,
    (C6_purl_partition 2 c6Heap0 0 c6Items c6Heap1 (by decide) (by decide)
      (by decide) (by decide) (by decide)).1⟩

/-- The purl of `pkg:deb/debian/acl@1.5.43`. -/
def aclPurl : Purl := ⟨"deb", some "debian", "acl", some "1.5.43"⟩

def c7Heap1 : Heap :=
  match releaseCtor 3 none (.str "e1") none [] emptyHeap with
  | .ok (_, s) => s
  | .error _ => emptyHeap

def c7Heap2 : Heap :=
  match releaseCtor 3 none (.str "e2") none [] emptyHeap with
  | .ok (_, s) => s
  | .error _ => emptyHeap

def c7Heap3 : Heap :=
  match releaseCtor 3 none (.str "e3") none [] emptyHeap with
  | .ok (_, s) => s
  | .error _ => emptyHeap

def c7Decode (enc : Json) (s : Heap) : Option (Finset Purl) :=
  match from_json 3 0 (.obj [("externalIds", .obj [("package-url", enc)])]) s with
  | .ok s' => (getObj s' 0).purls.getD ∅
  | .error _ => none

/-- C7: the three observed server encodings of the same purl — a plain
string, a JSON array, and a string containing JSON-array syntax (detected
by its leading `[` and re-parsed with `json.loads`) — all normalize to the
identical single-element `purls` set, both at the `_parse_purls` level and
through a full `from_json` decode onto fresh releases. -/
theorem C7_roundtrip_encodings :
    parse_purls (.str "pkg:deb/debian/acl@1.5.43") = .ok {aclPurl} ∧
    parse_purls (.arr [.str "pkg:deb/debian/acl@1.5.43"]) = .ok {aclPurl} ∧
    parse_purls (.str "[\"pkg:deb/debian/acl@1.5.43\"]") = .ok {aclPurl} ∧
    ({aclPurl} : Finset Purl).card = 1 ∧
    c7Decode (.str "pkg:deb/debian/acl@1.5.43") c7Heap1 = some {aclPurl} ∧
    c7Decode (.arr [.str "pkg:deb/debian/acl@1.5.43"]) c7Heap2 = some {aclPurl} ∧
    c7Decode (.str "[\"pkg:deb/debian/acl@1.5.43\"]") c7Heap3 = some {aclPurl} := by
  decide

def c10Heap0 : Heap :=
  match releaseCtor 3 none (.str "w") none [] emptyHeap with
  | .ok (_, s) => s
  | .error _ => emptyHeap

def c10Heap1 : Heap :=
  match from_json 3 0 (.obj [("externalIds",
      .obj [("x", .str "pkg:deb/debian/acl@1.5.43 pkg:bad")])]) c10Heap0 with
  | .ok s => s
  | .error _ => emptyHeap

/-- C10: the externalIds normalizer is not total over string values.  A
value that starts with `[` but is not valid JSON makes `json.loads` raise
`json.JSONDecodeError`, which `_parse_purls` does not catch, so `from_json`
propagates it to the caller (first conjunct).  Only `ValueError` from the
package-URL parser on an individual `pkg:`-prefixed candidate is caught and
silently discarded: a mixed value keeps the valid purl, drops the invalid
candidate, and stores nothing in `external_ids` (remaining conjuncts). -/
theorem C10_normalizer_partiality :
    from_json 3 0 (.obj [("externalIds", .obj [("x", .str "[notjson")])]) c10Heap0 =
      .error .jsonDecodeError ∧
    pyStartsWith "[notjson" "[" = true ∧
    jsonLoadsArray "[notjson" = none ∧
    from_json 3 0 (.obj [("externalIds",
      .obj [("x", .str "pkg:deb/debian/acl@1.5.43 pkg:bad")])]) c10Heap0 =
      .ok c10Heap1 ∧
    (getObj c10Heap1 0).purls = some {aclPurl} ∧
    (getObj c10Heap1 0).external_ids = some [] ∧
    pyStartsWith "pkg:bad" "pkg:" = true ∧
    purlFromString "pkg:bad" = none := by decide

theorem splitOnChar_no_sep (sep : Char) (cs : List Char) (h : sep ∉ cs) :
    splitOnChar sep cs = [cs] := by
  induction cs with
  | nil => rfl
  | cons c rest ih =>
      simp at h
      rw [splitOnChar, ih h.2]
      dsimp only
      rw [if_neg (fun he => h.1 he.symm)]

theorem stringMk_toList (s : String) : String.mk s.toList = s := rfl

def c5Heap0 : Heap :=
  match releaseCtor 3 none (.str "r1") none [] emptyHeap with
  | .ok (_, s) => s
  | .error _ => emptyHeap

/-- An embedded attachment list whose only attachment has an empty self
href — an href with no path segments at all. -/
def c5Step : Except Err Heap :=
  from_json 8 0
    (.obj [("_links", .obj [("sw360:attachments",
      .arr [.obj [("_links", .obj [("self", .obj [("href", .str "")])])]])])])
    c5Heap0

def c5Heap1 : Heap :=
  match c5Step with
  | .ok s => s
  | .error _ => emptyHeap

/-- C5, counterexample.  The claim says an href with no parseable trailing
id segment fails the decode with a fatal, surfaced error.  The module has
no such error path at all: `href.split("/")[-1]` (lines 109 and 148) is
total — on an href with no `/` the whole href is the "trailing segment",
and on the empty href it is `""`.  Decoding an attachment list whose self
href is `""` therefore *succeeds*, silently deriving the id `""`,
materializing the attachment under that id and even registering it under
`("Attachment", "")`. -/
theorem C5_counterexample :
    c5Step = .ok c5Heap1 ∧
    (getObj c5Heap1 1).cls = Cls.attachment ∧
    (getObj c5Heap1 1).id = some (.str "") ∧
    (getObj c5Heap1 0).attachments = some [(.str "", 1)] ∧
    alGet c5Heap1.reg (Cls.attachment, .str "") = some 1 := by decide

/-- C5, amended: no error is raised for a malformed href.  For every href
with no `/` at all, the derived trailing id segment is the entire href
(`""` for the empty href), and the attachment-list decode on such an href
succeeds, silently using that derived id (counterexample gives the
end-to-end decode). -/
theorem C5_amended :
    (∀ href : String, ('/' : Char) ∉ href.toList → hrefLastSegment href = href) ∧
    c5Step = .ok c5Heap1 ∧ (getObj c5Heap1 1).id = some (.str "") := by
  refine ⟨?_, by decide, by decide⟩
  intro href h
  unfold hrefLastSegment
  rw [splitOnChar_no_sep '/' href.toList h]
  simp [stringMk_toList]

theorem C5_amended_witness :
    (('/' : Char) ∉ "abc".toList) ∧ hrefLastSegment "abc" = "abc" :=
  ⟨by decide, C5_amended.1 "abc" (by decide)⟩

theorem fnsF_from_json (n : Nat) :
    (fnsF (n + 1)).from_json = fromJsonBodyF (fnsF n) := rfl

theorem fnsF_parse_link (n : Nat) :
    (fnsF (n + 1)).parse_link = parseLinkBodyF (fnsF n) := rfl

theorem fnsF_parse_release_list (n : Nat) :
    (fnsF (n + 1)).parse_release_list = parseReleaseListF (fnsF n) := rfl

theorem fnsF_constructRel (n : Nat) :
    (fnsF (n + 1)).constructRel = constructRelF (fnsF n) := rfl

/-- A release materialized with no parent: `Release(id_="r")` leaves
`parent = None` (line 67 with the default argument). -/
def c8PreRelHeap : Heap :=
  match releaseCtor 3 none (.str "r") none [] emptyHeap with
  | .ok (_, s) => s
  | .error _ => emptyHeap

/-- ... and then `Component(id_="c")` alongside it (address 1). -/
def c8PreHeap : Heap :=
  match componentCtor 3 none (.str "c") c8PreRelHeap with
  | .ok (_, s) => s
  | .error _ => emptyHeap

/-- C8, counterexample.  The claim says that in a Component-context decode
of `sw360:releases` *every* decoded release gets its parent set to the
component.  But if a listed release was previously materialized without a
parent (`parent = None`), re-construction inside `_parse_release_list`
evaluates `self.parent.id` (line 64) on `None` and the whole decode fails
with `AttributeError` — the release's parent is not set to the
component. -/
theorem C8_counterexample :
    (getObj c8PreHeap 0).cls = Cls.release ∧
    (getObj c8PreHeap 0).parent = some none ∧
    (getObj c8PreHeap 1).cls = Cls.component ∧
    from_json 8 1
      (.obj [("_embedded", .obj [("sw360:releases", .arr [.obj [("id", .str "r")]])])])
      c8PreHeap = .error .attributeError := by decide

def c8CompHeap : Heap :=
  match componentCtor 3 none (.str "c1") emptyHeap with
  | .ok (_, s) => s
  | .error _ => emptyHeap

def c8ProjHeap : Heap :=
  match projectCtorCore none (.str "p1") [] .null .null .null .null .null []
      emptyHeap with
  | .ok (_, s) => s
  | .error _ => emptyHeap

/-- An `_embedded` section with a single embedded release carrying id
`rid`. -/
def c8Payload (rid : String) : Json :=
  .obj [("_embedded", .obj [("sw360:releases", .arr [.obj [("id", .str rid)]])])]

/-- C8, amended: for a release *freshly materialized* by the decode (any
truthy id), the dispatch of `_parse_link` lines 135-143 behaves as claimed:
in a Component context the new release gets `parent` = the component and
its `users` stays empty; in a non-Component (Project) context the new
release's `parent` is set to `None` and its `users` gains exactly the entry
`{enclosing.id: enclosing}`.  (The amendment drops only the
previously-materialized releases, for which the counterexample shows the
decode instead fails with `AttributeError` when their parent is `None` —
or with `ValueError` when it differs from the component.) -/
theorem C8_amended (rid : String) (h : rid ≠ "") :
    (∃ s', from_json 8 0 (c8Payload rid) c8CompHeap = .ok s' ∧
      (getObj s' 1).cls = Cls.release ∧
      (getObj s' 1).parent = some (some 0) ∧
      (getObj s' 1).users = some [] ∧
      (getObj s' 0).releases = some [(.str rid, 1)]) ∧
    (∃ s', from_json 8 0 (c8Payload rid) c8ProjHeap = .ok s' ∧
      (getObj s' 1).cls = Cls.release ∧
      (getObj s' 1).parent = some none ∧
      (getObj s' 1).users = some [(.str "p1", 0)] ∧
      (getObj s' 0).releases = some [(.str rid, 1)]) := by
  constructor
  · simp [c8Payload, c8CompHeap, componentCtor, from_json, fnsF_from_json,
      fnsF_parse_link, fnsF_parse_release_list, fnsF_constructRel,
      fromJsonBodyF, fromJsonItems, processItemF, parseLinkBodyF,
      parseReleaseListF, constructRelF, constructCompF, releaseCtorCore,
      componentCtorCore, pyNew, baseInitCore, initDefaults, parentStep,
      usersMerge, kwargsMerge, setattrId, regRegister, releasePre, componentPre,
      sdef, sdefAttr, setattrAny, updateObj, getObj, alGet, alSet, blankObj,
      copyAttrs, camelToSnake, camelToSnakeTail, pyTruthy, emptyHeap,
      List.foldlM, List.foldl, h]
  · simp [c8Payload, c8ProjHeap, from_json, fnsF_from_json,
      fnsF_parse_link, fnsF_parse_release_list, fnsF_constructRel,
      fromJsonBodyF, fromJsonItems, processItemF, parseLinkBodyF,
      parseReleaseListF, constructRelF, releaseCtorCore, projectCtorCore,
      pyNew, baseInitCore, initDefaults, parentStep, usersMerge, kwargsMerge,
      setattrId, regRegister, releasePre, projectPre, sdef, sdefAttr,
      setattrAny, updateObj, getObj, alGet, alSet, blankObj, copyAttrs,
      camelToSnake, camelToSnakeTail, pyTruthy, emptyHeap,
      List.foldlM, List.foldl, h]

theorem C8_amended_witness :
    ("r1" : String) ≠ "" ∧
    ((∃ s', from_json 8 0 (c8Payload "r1") c8CompHeap = .ok s' ∧
      (getObj s' 1).cls = Cls.release ∧
      (getObj s' 1).parent = some (some 0) ∧
      (getObj s' 1).users = some [] ∧
      (getObj s' 0).releases = some [(.str "r1", 1)]) ∧
    (∃ s', from_json 8 0 (c8Payload "r1") c8ProjHeap = .ok s' ∧
      (getObj s' 1).cls = Cls.release ∧
      (getObj s' 1).parent = some none ∧
      (getObj s' 1).users = some [(.str "p1", 0)] ∧
      (getObj s' 0).releases = some [(.str "r1", 1)])) :=
  ⟨by decide, C8_amended "r1" (by decide)⟩
